import Mathlib

/-!
Verification of the natural-language specification of `pytkdocs`
(`src/pytkdocs/loader.py`) against a shallow embedding of the loader.

Live Python objects are represented by opaque identifiers (`Nat`); every
introspection primitive the loader calls (`importlib.import_module`,
`inspect.getmembers`, `getattr`, `inspect.signature`, ...) becomes a field of
an abstract `Env`.  The loader's own control flow is translated line by line
from the source.  Code of the repository that is not part of `loader.py`
(the `Object` entity classes from `pytkdocs.objects`, `RE_SPECIAL` from
`pytkdocs.properties`, the attribute parsers from `pytkdocs.parsers`) is
modelled from the spec, as marked on each such definition.
-/

set_option autoImplicit false

namespace Pytkdocs

/-! ### Basic data: exceptions, introspection results, attribute data -/

/-- Python exceptions that the loader code can raise or propagate. -/
inductive PyExc where
  | valueError (msg : String)
  | importError (msg : String)
  | attributeError (name : String)
  | typeError (msg : String)
  | keyError (key : String)
  | recursionError
deriving DecidableEq, Repr

/-- Result of `inspect.getsourcelines` (text plus starting line), which can
raise `OSError` or `TypeError`. -/
inductive SrcRes where
  | ok (text : String) (line : Nat)
  | oserror (msg : String)
  | typeerror (msg : String)
deriving DecidableEq, Repr

/-- Result of `inspect.signature`, which can raise `TypeError` or
`ValueError`; a successful signature is an opaque handle. -/
inductive SigRes where
  | ok (sig : Nat)
  | typeError (msg : String)
  | valueError (msg : String)
deriving DecidableEq, Repr

/-- One entry of a declared-attribute map: the inner Python dict with keys
`"docstring"` and `"annotation"`.  The outer `Option` records whether the key
is present in the inner dict at all (indexing a missing key raises
`KeyError`); the inner `Option` is the Python value, which may be `None`. -/
structure AttrData where
  docstring : Option (Option String) := none
  annot : Option (Option Nat) := none
deriving DecidableEq, Repr

/-- The empty inner dict `{}` used as the default of `.get(name, {})`. -/
def AttrData.empty : AttrData := {}

/-! ### Python dict operations over association lists

Python dicts are insertion ordered; we model them as association lists where
an update keeps the original position of an existing key and appends new
keys at the end, exactly like `dict.update`. -/

/-- `d.get(k)` / `d[k]` lookup. -/
def dictGet {α : Type} (d : List (String × α)) (k : String) : Option α :=
  (d.find? (fun p => p.1 == k)).map (fun p => p.2)

/-- `k in d` membership test. -/
def dictHas {α : Type} (d : List (String × α)) (k : String) : Bool :=
  (dictGet d k).isSome

/-- `base.update(extra)`: existing keys are overwritten in place, new keys
are appended in order. -/
def dictUpdate {α : Type} (base extra : List (String × α)) : List (String × α) :=
  extra.foldl
    (fun acc kv =>
      if acc.any (fun p => p.1 == kv.1) then
        acc.map (fun p => if p.1 == kv.1 then kv else p)
      else acc ++ [kv])
    base

/-- `".".join(parts)` for a list of path segments. -/
def joinDots (l : List String) : String :=
  match l with
  | [] => ""
  | a :: t => t.foldl (fun acc s => acc ++ "." ++ s) a

/-- `s.startswith(pre)` (computed structurally on the character lists). -/
def strStartsWith (s pre : String) : Bool :=
  pre.data.isPrefixOf s.data

/-- `s.endswith(suf)` (computed structurally on the character lists). -/
def strEndsWith (s suf : String) : Bool :=
  suf.data.reverse.isPrefixOf s.data.reverse

/-- `s.lstrip(c)` for a single strip character. -/
def lstrip (s : String) (c : Char) : String :=
  String.mk (s.data.dropWhile (fun x => x == c))

/-- `path.split(".")` of Python `str.split` with a literal separator
(computed structurally on the character list; `"".split(".") == [""]`,
and empty segments are kept). -/
def splitDotsAux : List Char → List Char → List String
  | [], acc => [String.mk acc.reverse]
  | c :: rest, acc =>
    if c == '.' then String.mk acc.reverse :: splitDotsAux rest []
    else splitDotsAux rest (c :: acc)

def splitDots (s : String) : List String :=
  splitDotsAux s.data []

/-! ### The introspection environment

Each field models exactly one Python builtin or library primitive used by
`loader.py`, applied to opaque object identifiers. -/

structure Env where
  /-- `importlib.import_module`; `none` models `ImportError`. -/
  importMod : String → Option Nat
  /-- `module.__name__`. -/
  modName : Nat → String
  /-- `inspect.unwrap` with every exception swallowed (total). -/
  unwrap : Nat → Nat
  /-- `getattr(obj, name)`; `none` models `AttributeError`. -/
  getattrObj : Nat → String → Option Nat
  /-- `inspect.getmodule`. -/
  getmodule : Nat → Option Nat
  /-- `inspect.ismodule`. -/
  isModule : Nat → Bool
  /-- `inspect.isclass`. -/
  isClass : Nat → Bool
  /-- `inspect.isfunction`, equally `isinstance(x, type(lambda: 0))`. -/
  isFunction : Nat → Bool
  /-- `inspect.iscoroutinefunction`. -/
  isCoroutineFunction : Nat → Bool
  /-- `isinstance(x, property)`. -/
  isPropertyObj : Nat → Bool
  /-- `isinstance(x, staticmethod)` on a raw `__dict__` entry. -/
  isStaticmethodRaw : Nat → Bool
  /-- `isinstance(x, classmethod)` on a raw `__dict__` entry. -/
  isClassmethodRaw : Nat → Bool
  /-- `obj.__dict__` of a class (its direct declaration namespace). -/
  dictOfClass : Nat → List (String × Nat)
  /-- `inspect.getmembers(obj)` as an ordered name/value list. -/
  getmembers : Nat → List (String × Nat)
  /-- `cls.__mro__`: the class itself first, `object` last. -/
  mro : Nat → List Nat
  /-- `inspect.getdoc`. -/
  getdoc : Nat → Option String
  /-- `obj.__doc__`. -/
  rawDoc : Nat → Option String
  /-- `inspect.cleandoc`. -/
  cleandoc : String → String
  /-- `inspect.getsource`; `.error msg` models `OSError`. -/
  getsource : Nat → Except String String
  /-- `inspect.getsourcelines`. -/
  getsourcelines : Nat → SrcRes
  /-- `inspect.getabsfile` (total here; no claim concerns its failure). -/
  getabsfile : Nat → String
  /-- `Path(p).open()` + `readlines()`; `.error msg` models `OSError`. -/
  readlinesOfFile : String → Except String (List String)
  /-- `inspect.signature`. -/
  signature : Nat → SigRes
  /-- `re.compile(pattern).search(name)` of the Python `re` module:
  `regexSearch pattern name` is true when the compiled pattern matches
  somewhere in `name`. -/
  regexSearch : String → String → Bool
  /-- `.items()` of a dict-valued registry object (`__fields__`,
  `_declared_fields`, `__dataclass_fields__`). -/
  dictItems : Nat → List (String × Nat)
  /-- `field.required` of a pydantic or marshmallow field. -/
  fieldRequired : Nat → Bool
  /-- `field.field_info.description` of a pydantic field. -/
  fieldInfoDescription : Nat → Option String
  /-- `field.type_` of a pydantic field. -/
  pydFieldType : Nat → Nat
  /-- `field.metadata.get("description")` of a marshmallow field. -/
  metadataDescription : Nat → Option String
  /-- `type(x)`. -/
  typeOf : Nat → Nat
  /-- `field.name` of a dataclass field object. -/
  dcFieldName : Nat → String
  /-- `field.type` of a dataclass field object. -/
  dcFieldType : Nat → Nat
  /-- `property.fget`. -/
  propFget : Nat → Nat
  /-- `property.fset is None`. -/
  propFsetIsNone : Nat → Bool
  /-- `signature.return_annotation` (as an optional opaque type handle). -/
  returnAnnot : Nat → Option Nat
  /-- `module.__path__` plus `pkgutil.iter_modules`: the names of direct
  submodules, or `none` when the module has no `__path__`. -/
  submodules : Nat → Option (List String)
  /-- The `type` builtin's identity (for the `member is type` sentinel test). -/
  typeId : Nat
  /-- The `object` builtin's identity (for `member is object`). -/
  objectId : Nat
  /-- `get_module_attributes` from `pytkdocs.parsers.attributes` (an external
  collaborator of the core; its contract is the declared-attribute map). -/
  get_module_attributes : Nat → List (String × AttrData)
  /-- `get_class_attributes` from `pytkdocs.parsers.attributes`. -/
  get_class_attributes : Nat → List (String × AttrData)
  /-- `get_instance_attributes` from `pytkdocs.parsers.attributes`. -/
  get_instance_attributes : Nat → List (String × AttrData)
  /-- The docstring parsing collaborator `parser.parse(text, context)`;
  its structured-section output is opaque. -/
  parseDoc : Option String → List (String × AttrData) → Nat

/-! ### ObjectNode: the backward-linked resolution chain -/

/-- `ObjectNode` from `loader.py`: an object, its name, and an optional
parent node (`root` is a node whose `parent` is `None`). -/
inductive ObjectNode where
  | root (obj : Nat) (name : String)
  | child (obj : Nat) (name : String) (parent : ObjectNode)
deriving DecidableEq, Repr

/-- `ObjectNode.__init__`: stores `inspect.unwrap(obj)` (exceptions during
unwrapping are swallowed, which `Env.unwrap` being total already models). -/
def mkObjectNode (env : Env) (obj : Nat) (name : String) :
    Option ObjectNode → ObjectNode
  | none => .root (env.unwrap obj) name
  | some p => .child (env.unwrap obj) name p

namespace ObjectNode

def obj : ObjectNode → Nat
  | .root o _ => o
  | .child o _ _ => o

def name : ObjectNode → String
  | .root _ n => n
  | .child _ n _ => n

def parentOpt : ObjectNode → Option ObjectNode
  | .root _ _ => none
  | .child _ _ p => some p

/-- `dotted_path`: the `"."`-join of the names from the root down to this
node. -/
def dotted_path : ObjectNode → String
  | .root _ n => n
  | .child _ n p => p.dotted_path ++ "." ++ n

/-- `root`: walk `parent` links until none is left. -/
def rootNode : ObjectNode → ObjectNode
  | .root o n => .root o n
  | .child _ _ p => p.rootNode

/-- `file_path`: `inspect.getabsfile(self.root.obj)`. -/
def file_path (env : Env) (n : ObjectNode) : String :=
  env.getabsfile n.rootNode.obj

def is_module (env : Env) (n : ObjectNode) : Bool := env.isModule n.obj

def is_class (env : Env) (n : ObjectNode) : Bool := env.isClass n.obj

def is_function (env : Env) (n : ObjectNode) : Bool := env.isFunction n.obj

def is_coroutine_function (env : Env) (n : ObjectNode) : Bool :=
  env.isCoroutineFunction n.obj

def is_property (env : Env) (n : ObjectNode) : Bool := env.isPropertyObj n.obj

def parent_is_class (env : Env) (n : ObjectNode) : Bool :=
  match n.parentOpt with
  | some p => env.isClass p.obj
  | none => false

/-- `is_method`: parent is a class and the bound value is a plain function. -/
def is_method (env : Env) (n : ObjectNode) : Bool :=
  n.parent_is_class env && env.isFunction n.obj

/-- `is_staticmethod`: inspects `parent.obj.__dict__.get(name, None)`
(`isinstance(None, staticmethod)` is false, hence the `none => false`). -/
def is_staticmethod (env : Env) (n : ObjectNode) : Bool :=
  match n.parentOpt with
  | none => false
  | some p =>
      n.parent_is_class env &&
        (match dictGet (env.dictOfClass p.obj) n.name with
          | some v => env.isStaticmethodRaw v
          | none => false)

/-- `is_classmethod`: same check against `classmethod`. -/
def is_classmethod (env : Env) (n : ObjectNode) : Bool :=
  match n.parentOpt with
  | none => false
  | some p =>
      n.parent_is_class env &&
        (match dictGet (env.dictOfClass p.obj) n.name with
          | some v => env.isClassmethodRaw v
          | none => false)

end ObjectNode

/-! ### get_object_tree: the path resolver -/

/-- The import loop of `get_object_tree`: try importing the joined segment
list; on `ImportError` pop the right-most segment onto the pending object
list and retry, raising once a single segment remains and fails.  The
segment list is carried reversed so that popping the last segment is a
structural head operation (`revMods.reverse` is the current prefix). -/
def findModuleRev (env : Env) : List String → List String → Option (Nat × List String)
  | [], _ => none
  | seg :: rest, objects =>
    match env.importMod (joinDots (seg :: rest).reverse) with
    | some m => some (m, objects)
    | none =>
      match rest with
      | [] => none
      | r :: rs => findModuleRev env (r :: rs) (seg :: objects)

/-- The attribute-walk of `get_object_tree`: one node per pending segment,
each `getattr`-resolved against the previous node's object. -/
def buildChain (env : Env) (current : ObjectNode) :
    List String → Except PyExc ObjectNode
  | [] => .ok current
  | obj_name :: rest =>
    match env.getattrObj current.obj obj_name with
    | none => .error (.attributeError obj_name)
    | some o => buildChain env (mkObjectNode env o obj_name (some current)) rest

/-- The re-export correction loop of `get_object_tree`: walking up from the
leaf, remember the first `inspect.getmodule` result; at the node whose
parent is a module, replace that parent by a fresh root node for the real
module when they differ. -/
def fixChain (env : Env) (realm0 : Option Nat) : ObjectNode → ObjectNode
  | .root o n => .root o n
  | .child o n p =>
    let realm := match realm0 with
      | some r => some r
      | none => env.getmodule o
    if env.isModule p.obj then
      match realm with
      | some r =>
          if r == p.obj then .child o n p
          else .child o n (mkObjectNode env r (env.modName r) none)
      | none => .child o n p
    else .child o n (fixChain env realm p)

/-- `get_object_tree(path)`: raise `ValueError` on an empty path, find the
deepest importable prefix (raising `ImportError` when even the first segment
fails), build the attribute chain, then apply the re-export correction. -/
def get_object_tree (env : Env) (path : String) : Except PyExc ObjectNode :=
  if path = "" then
    .error (.valueError ("path must be a valid Python path, not " ++ path))
  else
    match findModuleRev env (splitDots path).reverse [] with
    | none =>
        .error (.importError
          ("No module named '" ++ (splitDots path).headD "" ++ "'"))
    | some (m, objects) =>
      match buildChain env (mkObjectNode env m (env.modName m) none) objects with
      | .error e => .error e
      | .ok leaf => .ok (fixChain env none leaf)

/-! ### The Loader configuration: filters and the member selector -/

/-- The immutable part of a `Loader` instance: the compiled filter chain
(each raw filter string paired with the search function of its compiled
regex, the leading `!`s stripped before compilation) and the
inherited-members flag.  The mutable `errors` list is threaded through the
builder functions explicitly. -/
structure LoaderCfg where
  filters : List (String × (String → Bool))
  select_inherited_members : Bool
deriving Inhabited

/-- `Loader.__init__`: `self.filters = [(f, re.compile(f.lstrip("!"))) for f
in filters]` (with `None`/empty coerced to the empty list beforehand).
`search` is the regex engine (`Env.regexSearch` in concrete instances). -/
def mkLoader (search : String → String → Bool) (filters : List String)
    (inherited_members : Bool) : LoaderCfg :=
  { filters := filters.map (fun f => (f, search (lstrip f '!'))),
    select_inherited_members := inherited_members }

/-- `Loader.filter_name_out`: walk the chain keeping a boolean `keep`
(initially true).  A pattern that matches sets `keep` to the match flag,
negated when the raw filter string starts with `!`; the name is filtered
out when the final `keep` is false.  (The `lru_cache` memoization is
observationally irrelevant for a pure function.) -/
def filter_name_out (cfg : LoaderCfg) (name : String) : Bool :=
  if cfg.filters.isEmpty then false
  else
    !(cfg.filters.foldl
      (fun keep fr =>
        let is_matching := fr.2 name
        if is_matching then
          (if strStartsWith fr.1 "!" then !is_matching else is_matching)
        else keep)
      true)

/-- `Loader.select`: a non-empty explicit name set short-circuits to
membership; otherwise the filter chain decides. -/
def select (cfg : LoaderCfg) (name : String) (names : List String) : Bool :=
  if names.isEmpty then !(filter_name_out cfg name) else names.contains name

/-! ### Documentation entities

Modelled from the spec: the `Object` subclasses (`Module`, `Class`,
`Function`, `Method`, `Attribute`) of `pytkdocs.objects` are not part of
`loader.py`; the spec describes them as tagged variants with common fields
`name`, `dotted_path`, `file_path`, `docstring`, `properties`, `children`,
plus variant fields `signature`, `attr_type`, `source`.  `add_child`
appends to the ordered children sequence; the parsed-docstring sections are
an opaque value filled in by the parsing collaborator. -/

inductive Kind where
  | module | class_ | function | method | attribute
deriving DecidableEq, Repr

/-- `Source(text, line_start)` from `pytkdocs.objects` (modelled from the
spec: a text block plus a starting line). -/
structure SourceS where
  text : String
  line : Nat
deriving DecidableEq, Repr

structure ObjData where
  kind : Kind
  name : String
  path : String
  file_path : String
  docstring : Option String
  properties : List String := []
  signature : Option Nat := none
  attr_type : Option Nat := none
  source : Option SourceS := none
  parsed : Option Nat := none
deriving DecidableEq, Repr

inductive Obj where
  | mk (data : ObjData) (children : List Obj)

namespace Obj

def data : Obj → ObjData
  | .mk d _ => d

def children : Obj → List Obj
  | .mk _ c => c

/-- Modelled from the spec: `add_child` appends to the ordered children
sequence (order = discovery order). -/
def addChild : Obj → Obj → Obj
  | .mk d cs, c => .mk d (cs ++ [c])

/-- `obj.properties.append(p)`. -/
def addProperty : Obj → String → Obj
  | .mk d cs, p => .mk { d with properties := d.properties ++ [p] } cs

/-- `obj.properties = ps` (overwriting assignment). -/
def setProperties : Obj → List String → Obj
  | .mk d cs, ps => .mk { d with properties := ps } cs

/-- `obj.docstring = s`. -/
def setDocstring : Obj → Option String → Obj
  | .mk d cs, s => .mk { d with docstring := s } cs

end Obj

/-- Modelled from the spec: `Object.parse_docstring(parser, **context)` of
`pytkdocs.objects` invokes the docstring-parsing collaborator once per
entity (a truthy raw docstring, not already parsed), storing the opaque
structured sections; it touches nothing else. -/
def parse_docstring (env : Env) (o : Obj) (attrs : List (String × AttrData)) : Obj :=
  match o with
  | .mk d cs =>
    if (match d.docstring with | some s => !(s == "") | none => false)
        && d.parsed.isNone then
      .mk { d with parsed := some (env.parseDoc d.docstring attrs) } cs
    else .mk d cs

/-- Modelled from the spec: `parse_all_docstrings` applies the parsing
collaborator to every entity of the assembled tree (entities already
parsed with an attribute context during construction are left alone). -/
def parse_all_docstrings (env : Env) : Obj → Obj
  | .mk d cs => match parse_docstring env (.mk d []) [] with
    | .mk d2 _ => .mk d2 (parseAllList env cs)
where
  parseAllList (env : Env) : List Obj → List Obj
    | [] => []
    | o :: os => parse_all_docstrings env o :: parseAllList env os

/-- Modelled from the spec: `RE_SPECIAL` from `pytkdocs.properties`, the
reserved double-delimiter ("dunder") special-method name pattern. -/
def reSpecialMatch (name : String) : Bool :=
  strStartsWith name "__" && strEndsWith name "__"

/-! ### Entity constructors (keyword arguments of the Python constructors) -/

def mkModuleObj (name path file_path : String) (docstring : Option String)
    (source : Option SourceS) : Obj :=
  .mk { kind := .module, name := name, path := path, file_path := file_path,
        docstring := docstring, source := source } []

def mkClassObj (name path file_path : String) (docstring : String) : Obj :=
  .mk { kind := .class_, name := name, path := path, file_path := file_path,
        docstring := some docstring } []

def mkFunctionObj (name path file_path : String) (docstring : Option String)
    (signature : Option Nat) (source : Option SourceS)
    (properties : List String) : Obj :=
  .mk { kind := .function, name := name, path := path, file_path := file_path,
        docstring := docstring, signature := signature, source := source,
        properties := properties } []

def mkMethodObj (name path file_path : String) (docstring : Option String)
    (signature : Option Nat) (properties : List String)
    (source : Option SourceS) : Obj :=
  .mk { kind := .method, name := name, path := path, file_path := file_path,
        docstring := docstring, signature := signature, source := source,
        properties := properties } []

def mkAttributeObj (name path file_path : String) (docstring : Option String)
    (attr_type : Option Nat) (properties : List String := [])
    (source : Option SourceS := none) : Obj :=
  .mk { kind := .attribute, name := name, path := path, file_path := file_path,
        docstring := docstring, attr_type := attr_type, source := source,
        properties := properties } []

/-! ### Member-selection arguments

`get_object_documentation` takes `members: Optional[Union[Set[str], bool]]`;
`True` is coerced to the empty set before dispatch, so the builders only
ever see `None`, `False` or a set. -/

/-- The `members` argument of the entry point. -/
inductive Members where
  | auto                         -- None
  | all                          -- True
  | noneM                        -- False
  | explicit (names : List String)  -- a set of names
deriving DecidableEq, Repr

/-- The `select_members` argument of the module/class builders. -/
inductive SelectMembers where
  | noSelection                  -- None
  | selectNone                   -- False
  | explicitSel (names : List String)
deriving DecidableEq, Repr

/-- The coercion at the head of `get_object_documentation`:
`if members is True: members = set()`. -/
def Members.toSelect : Members → SelectMembers
  | .auto => .noSelection
  | .all => .explicitSel []
  | .noneM => .selectNone
  | .explicit l => .explicitSel l

/-- `select_members = select_members or set()`: both `None` and the empty
set normalize to the empty set. -/
def selNames : SelectMembers → List String
  | .explicitSel l => l
  | _ => []

/-- The result of a builder: either a propagating Python exception or a
value, in both cases together with the loader's `errors` list. -/
abbrev BuildRes (α : Type) : Type := Except (PyExc × List String) (α × List String)

/-! ### Leaf builders (no recursion) -/

/-- `Loader.get_attribute_documentation`: with no explicit data, look the
name up in the declared-attribute map of the parent class (or else of the
root module), defaulting to the empty dict; emit an `Attribute` whose
docstring defaults to `""` and whose type defaults to `None`. -/
def get_attribute_documentation (env : Env) (node : ObjectNode)
    (attribute_data : Option AttrData) : Obj :=
  let ad := match attribute_data with
    | some d => d
    | none =>
      match node.parentOpt with
      | some p =>
          if env.isClass p.obj then
            (dictGet (env.get_class_attributes p.obj) node.name).getD AttrData.empty
          else
            (dictGet (env.get_module_attributes node.rootNode.obj) node.name).getD AttrData.empty
      | none =>
          (dictGet (env.get_module_attributes node.rootNode.obj) node.name).getD AttrData.empty
  mkAttributeObj node.name node.dotted_path (node.file_path env)
    (ad.docstring.getD (some "")) (ad.annot.getD none)

/-- `Loader.get_annotated_dataclass_field`: same lookup with the same
`.get(name, {})` default, but the inner dict is then indexed with
`["docstring"]` and `["annotation"]`, raising `KeyError` when a key is
missing (in particular on the `{}` default). -/
def get_annotated_dataclass_field (env : Env) (node : ObjectNode)
    (attribute_data : Option AttrData) : Except PyExc Obj :=
  let ad := match attribute_data with
    | some d => d
    | none =>
      match node.parentOpt with
      | some p =>
          if env.isClass p.obj then
            (dictGet (env.get_class_attributes p.obj) node.name).getD AttrData.empty
          else
            (dictGet (env.get_module_attributes node.rootNode.obj) node.name).getD AttrData.empty
      | none =>
          (dictGet (env.get_module_attributes node.rootNode.obj) node.name).getD AttrData.empty
  match ad.docstring with
  | none => .error (.keyError "docstring")
  | some doc =>
    match ad.annot with
    | none => .error (.keyError "annotation")
    | some ann =>
      .ok (mkAttributeObj node.name node.dotted_path (node.file_path env)
        doc ann ["dataclass-field"])

/-- `Loader.get_pydantic_field_documentation`. -/
def get_pydantic_field_documentation (env : Env) (node : ObjectNode) : Obj :=
  let prop := node.obj
  let properties :=
    if env.fieldRequired prop then ["pydantic-field", "required"]
    else ["pydantic-field"]
  mkAttributeObj node.name node.dotted_path (node.file_path env)
    (env.fieldInfoDescription prop) (some (env.pydFieldType prop)) properties

/-- `Loader.get_marshmallow_field_documentation`. -/
def get_marshmallow_field_documentation (env : Env) (node : ObjectNode) : Obj :=
  let prop := node.obj
  let properties :=
    if env.fieldRequired prop then ["marshmallow-field", "required"]
    else ["marshmallow-field"]
  mkAttributeObj node.name node.dotted_path (node.file_path env)
    (env.metadataDescription prop) (some (env.typeOf prop)) properties

/-- `Loader.get_function_documentation`: the signature attempt catches only
`TypeError` (appending an error and leaving the signature absent), the
source attempt catches only `OSError`; other exceptions propagate. -/
def get_function_documentation (env : Env) (node : ObjectNode)
    (errs : List String) : BuildRes Obj :=
  let function := node.obj
  let path := node.dotted_path
  let sigStep : BuildRes (Option Nat) :=
    match env.signature function with
    | .ok s => .ok (some s, errs)
    | .typeError m =>
        .ok (none, errs ++ ["Couldn't get signature for '" ++ path ++ "': " ++ m])
    | .valueError m => .error (.valueError m, errs)
  match sigStep with
  | .error e => .error e
  | .ok (signature, errs) =>
    let srcStep : BuildRes (Option SourceS) :=
      match env.getsourcelines function with
      | .ok t l => .ok (some ⟨t, l⟩, errs)
      | .oserror m =>
          .ok (none, errs ++ ["Couldn't read source for '" ++ path ++ "': " ++ m])
      | .typeerror m => .error (.typeError m, errs)
    match srcStep with
    | .error e => .error e
    | .ok (source, errs) =>
      let properties := if node.is_coroutine_function env then ["async"] else []
      .ok (mkFunctionObj node.name node.dotted_path (node.file_path env)
            (env.getdoc function) signature source properties, errs)

/-- `Loader.get_method_documentation`: the source attempt catches `OSError`
(appending an error) and `TypeError` (silently); the signature in the
`Method(...)` constructor call is *not* guarded, so a signature failure
propagates as an exception. -/
def get_method_documentation (env : Env) (node : ObjectNode)
    (properties : Option (List String)) (errs : List String) : BuildRes Obj :=
  let method := node.obj
  let path := node.dotted_path
  let (source, errs) :=
    match env.getsourcelines method with
    | .ok t l => (some (SourceS.mk t l), errs)
    | .oserror m =>
        (none, errs ++ ["Couldn't read source for '" ++ path ++ "': " ++ m])
    | .typeerror _ => (none, errs)
  let properties :=
    if node.is_coroutine_function env then some (properties.getD [] ++ ["async"])
    else properties
  match env.signature method with
  | .ok sig =>
      .ok (mkMethodObj node.name path (node.file_path env) (env.getdoc method)
            (some sig) (properties.getD []) source, errs)
  | .typeError m => .error (.typeError m, errs)
  | .valueError m => .error (.valueError m, errs)

/-- `Loader.get_classmethod_documentation`. -/
def get_classmethod_documentation (env : Env) (node : ObjectNode)
    (errs : List String) : BuildRes Obj :=
  get_method_documentation env node (some ["classmethod"]) errs

/-- `Loader.get_staticmethod_documentation`. -/
def get_staticmethod_documentation (env : Env) (node : ObjectNode)
    (errs : List String) : BuildRes Obj :=
  get_method_documentation env node (some ["staticmethod"]) errs

/-- The ancestor walk of `get_regular_method_documentation`: over
`__mro__[1:]`, skip ancestors on `AttributeError`; at the first ancestor
where `getattr` succeeds, blank the docstring if it equals that ancestor
method's docstring, then stop either way. -/
def specialDocstring (env : Env) (name : String) (doc : Option String) :
    List Nat → Option String
  | [] => doc
  | c :: rest =>
    match env.getattrObj c name with
    | none => specialDocstring env name doc rest
    | some parent_method =>
        if doc = env.getdoc parent_method then some "" else doc

/-- `Loader.get_regular_method_documentation`: build the method, then for a
special (double-delimiter) name discard a docstring inherited unchanged
from the nearest ancestor in linearized order that resolves the name. -/
def get_regular_method_documentation (env : Env) (node : ObjectNode)
    (errs : List String) : BuildRes Obj :=
  match get_method_documentation env node none errs with
  | .error e => .error e
  | .ok (method, errs) =>
    match node.parentOpt with
    | none => .ok (method, errs)
    | some p =>
      if reSpecialMatch node.name then
        .ok (method.setDocstring
              (specialDocstring env node.name method.data.docstring
                ((env.mro p.obj).drop 1)), errs)
      else .ok (method, errs)

/-- `Loader.get_property_documentation`: the getter-signature attempt
catches `TypeError` and `ValueError`, the getter-source attempt catches
`OSError` and `TypeError`; both append an error on failure. -/
def get_property_documentation (env : Env) (node : ObjectNode)
    (errs : List String) : BuildRes Obj :=
  let prop := node.obj
  let path := node.dotted_path
  let properties :=
    ["property", if env.propFsetIsNone prop then "readonly" else "writable"]
  let (attr_type, errs) :=
    match env.signature (env.propFget prop) with
    | .ok s => (env.returnAnnot s, errs)
    | .typeError m =>
        (none, errs ++ ["Couldn't get signature for '" ++ path ++ "': " ++ m])
    | .valueError m =>
        (none, errs ++ ["Couldn't get signature for '" ++ path ++ "': " ++ m])
  let (source, errs) :=
    match env.getsourcelines (env.propFget prop) with
    | .ok t l => (some (SourceS.mk t l), errs)
    | .oserror m =>
        (none, errs ++ ["Couldn't get source for '" ++ path ++ "': " ++ m])
    | .typeerror m =>
        (none, errs ++ ["Couldn't get source for '" ++ path ++ "': " ++ m])
  .ok (mkAttributeObj node.name path (node.file_path env)
        (env.getdoc (env.propFget prop)) attr_type properties source, errs)

/-! ### Structured-declaration detection and field loops -/

/-- The pydantic check of `get_class_documentation`:
`"__fields__" in direct_members or (self.select_inherited_members and
"__fields__" in all_members)`. -/
def detectsPydantic (env : Env) (cfg : LoaderCfg) (class_ : Nat) : Bool :=
  dictHas (env.dictOfClass class_) "__fields__" ||
    (cfg.select_inherited_members && dictHas (env.getmembers class_) "__fields__")

/-- The marshmallow check, against `_declared_fields`. -/
def detectsMarshmallow (env : Env) (cfg : LoaderCfg) (class_ : Nat) : Bool :=
  dictHas (env.dictOfClass class_) "_declared_fields" ||
    (cfg.select_inherited_members &&
      dictHas (env.getmembers class_) "_declared_fields")

/-- The dataclass check, against `__dataclass_fields__`. -/
def detectsDataclass (env : Env) (cfg : LoaderCfg) (class_ : Nat) : Bool :=
  dictHas (env.dictOfClass class_) "__dataclass_fields__" ||
    (cfg.select_inherited_members &&
      dictHas (env.getmembers class_) "__dataclass_fields__")

/-- `field_name in chain(*(getattr(cls, attr, {}).keys() for cls in
class_.__mro__[1:-1]))`: is the field declared in some strict ancestor's
registry? -/
def inAncestorRegistry (env : Env) (mroMid : List Nat) (attr : String)
    (field_name : String) : Bool :=
  mroMid.any (fun cls =>
    match env.getattrObj cls attr with
    | some reg => dictHas (env.dictItems reg) field_name
    | none => false)

/-- The pydantic-field emission loop over `all_members["__fields__"].items()`. -/
def pydFieldLoop (env : Env) (cfg : LoaderCfg) (node : ObjectNode)
    (mroMid : List Nat) (select_members : List String) :
    List (String × Nat) → Obj → Obj
  | [], ro => ro
  | (field_name, model_field) :: rest, ro =>
    if select cfg field_name select_members &&
        (cfg.select_inherited_members ||
          !inAncestorRegistry env mroMid "__fields__" field_name) then
      pydFieldLoop env cfg node mroMid select_members rest
        (ro.addChild (get_pydantic_field_documentation env
          (mkObjectNode env model_field field_name (some node))))
    else pydFieldLoop env cfg node mroMid select_members rest ro

/-- The marshmallow-field emission loop over
`all_members["_declared_fields"].items()`. -/
def marshFieldLoop (env : Env) (cfg : LoaderCfg) (node : ObjectNode)
    (mroMid : List Nat) (select_members : List String) :
    List (String × Nat) → Obj → Obj
  | [], ro => ro
  | (field_name, model_field) :: rest, ro =>
    if select cfg field_name select_members &&
        (cfg.select_inherited_members ||
          !inAncestorRegistry env mroMid "_declared_fields" field_name) then
      marshFieldLoop env cfg node mroMid select_members rest
        (ro.addChild (get_marshmallow_field_documentation env
          (mkObjectNode env model_field field_name (some node))))
    else marshFieldLoop env cfg node mroMid select_members rest ro

/-- The dataclass-field emission loop over
`all_members["__dataclass_fields__"].values()`; building a field can raise
(`get_annotated_dataclass_field`). -/
def dcFieldLoop (env : Env) (cfg : LoaderCfg) (node : ObjectNode)
    (mroMid : List Nat) (select_members : List String) :
    List Nat → Obj → Except PyExc Obj
  | [], ro => .ok ro
  | field :: rest, ro =>
    if select cfg (env.dcFieldName field) select_members &&
        (cfg.select_inherited_members ||
          !inAncestorRegistry env mroMid "__dataclass_fields__"
            (env.dcFieldName field)) then
      match get_annotated_dataclass_field env
          (mkObjectNode env (env.dcFieldType field) (env.dcFieldName field)
            (some node)) none with
      | .error e => .error e
      | .ok child => dcFieldLoop env cfg node mroMid select_members rest (ro.addChild child)
    else dcFieldLoop env cfg node mroMid select_members rest ro

/-! ### The recursive builders

The Python recursion is bounded only by the depth of the object graph; the
embedding makes the recursion depth explicit with a fuel parameter that
every call decrements, failing with `RecursionError` at zero.  All claims
are either conditioned on a successful (`.ok`) result or stated at an
explicitly sufficient fuel. -/

mutual

/-- `Loader.get_module_documentation`: resolve the source (live retrieval,
then file fallback, recording an error only when both raise `OSError` — an
empty fallback read yields no source and no error), build the `Module`,
stop early on `select_members is False`, otherwise parse the docstring with
the module attribute map and process members and submodules. -/
def get_module_documentation (env : Env) (cfg : LoaderCfg) (fuel : Nat)
    (node : ObjectNode) (sel : SelectMembers) (errs : List String) :
    BuildRes Obj :=
  match fuel with
  | 0 => .error (.recursionError, errs)
  | fuel + 1 =>
    let module := node.obj
    let path := node.dotted_path
    let name := (splitDots path).getLastD ""
    let (source, errs) :=
      match env.getsource module with
      | .ok text => (some (SourceS.mk text 1), errs)
      | .error error =>
        match env.readlinesOfFile (node.file_path env) with
        | .ok code =>
            (if code.isEmpty then none else some (SourceS.mk (String.join code) 1),
             errs)
        | .error _ =>
            (none, errs ++ ["Couldn't read source for '" ++ path ++ "': " ++ error])
    let root_object :=
      mkModuleObj name path (node.file_path env) (env.getdoc module) source
    match sel with
    | .selectNone => .ok (root_object, errs)
    | _ => gmCore env cfg fuel node (selNames sel) root_object errs

/-- The part of `get_module_documentation` below the `select_members is
False` early return, with `select_members or set()` already normalized. -/
def gmCore (env : Env) (cfg : LoaderCfg) (fuel : Nat) (node : ObjectNode)
    (select_members : List String) (root_object : Obj) (errs : List String) :
    BuildRes Obj :=
  match fuel with
  | 0 => .error (.recursionError, errs)
  | fuel + 1 =>
    let module := node.obj
    let path := node.dotted_path
    let attributes_data := env.get_module_attributes module
    let root_object := parse_docstring env root_object attributes_data
    match moduleMemberLoop env cfg fuel node attributes_data select_members
        (env.getmembers module) root_object errs with
    | .error e => .error e
    | .ok (root_object, errs) =>
      match env.submodules module with
      | none => .ok (root_object, errs)
      | some modnames =>
          submoduleLoop env cfg fuel path select_members modnames root_object errs

/-- The member loop of `get_module_documentation`: recurse into classes and
functions whose defining module is the documented module itself; emit an
`Attribute` for names present in the module's declared-attribute map. -/
def moduleMemberLoop (env : Env) (cfg : LoaderCfg) (fuel : Nat)
    (node : ObjectNode) (attributes_data : List (String × AttrData))
    (select_members : List String) (members : List (String × Nat)) (ro : Obj)
    (errs : List String) : BuildRes Obj :=
  match fuel with
  | 0 => .error (.recursionError, errs)
  | fuel + 1 =>
    match members with
    | [] => .ok (ro, errs)
    | (member_name, member) :: rest =>
      if select cfg member_name select_members then
        let child_node := mkObjectNode env member member_name (some node)
        if child_node.is_class env && (env.getmodule member == some node.rootNode.obj) then
          match get_class_documentation env cfg fuel child_node .noSelection errs with
          | .error e => .error e
          | .ok (c, errs) =>
              moduleMemberLoop env cfg fuel node attributes_data select_members
                rest (ro.addChild c) errs
        else if child_node.is_function env && (env.getmodule member == some node.rootNode.obj) then
          match get_function_documentation env child_node errs with
          | .error e => .error e
          | .ok (c, errs) =>
              moduleMemberLoop env cfg fuel node attributes_data select_members
                rest (ro.addChild c) errs
        else
          match dictGet attributes_data member_name with
          | some ad =>
              moduleMemberLoop env cfg fuel node attributes_data select_members
                rest (ro.addChild (get_attribute_documentation env child_node (some ad))) errs
          | none =>
              moduleMemberLoop env cfg fuel node attributes_data select_members
                rest ro errs
      else
        moduleMemberLoop env cfg fuel node attributes_data select_members rest ro errs

/-- The namespace-package loop of `get_module_documentation`: for each
selected direct submodule name, resolve `f"{path}.{modname}"` and build it
as a child module (a resolution failure propagates). -/
def submoduleLoop (env : Env) (cfg : LoaderCfg) (fuel : Nat) (path : String)
    (select_members : List String) (modnames : List String) (ro : Obj)
    (errs : List String) : BuildRes Obj :=
  match fuel with
  | 0 => .error (.recursionError, errs)
  | fuel + 1 =>
    match modnames with
    | [] => .ok (ro, errs)
    | modname :: rest =>
      if select cfg modname select_members then
        match get_object_tree env (path ++ "." ++ modname) with
        | .error e => .error (e, errs)
        | .ok leaf =>
          match get_module_documentation env cfg fuel leaf .noSelection errs with
          | .error e => .error e
          | .ok (child, errs) =>
              submoduleLoop env cfg fuel path select_members rest (ro.addChild child) errs
      else submoduleLoop env cfg fuel path select_members rest ro errs

/-- `Loader.get_class_documentation`: build the `Class` with the cleaned
docstring, merge the declared-attribute maps of the linearized ancestors
(most-base first, `object` excluded) plus the initializer-local map when
the class defines `__init__` (whose signature is also taken, unguarded),
parse the docstring, stop early on `select_members is False`, then process
members and the structured-declaration conventions. -/
def get_class_documentation (env : Env) (cfg : LoaderCfg) (fuel : Nat)
    (node : ObjectNode) (sel : SelectMembers) (errs : List String) :
    BuildRes Obj :=
  match fuel with
  | 0 => .error (.recursionError, errs)
  | fuel + 1 =>
    let class_ := node.obj
    let docstring := env.cleandoc ((env.rawDoc class_).getD "")
    let root_object :=
      mkClassObj node.name node.dotted_path (node.file_path env) docstring
    let base :=
      (((env.mro class_).dropLast).reverse).foldl
        (fun acc cls => dictUpdate acc (env.get_class_attributes cls)) []
    let direct := env.dictOfClass class_
    let initStep : BuildRes (List (String × AttrData)) :=
      if dictHas direct "__init__" then
        match env.getattrObj class_ "__init__" with
        | none => .error (.attributeError "__init__", errs)
        | some initObj =>
          match env.signature initObj with
          | .ok _ => .ok (dictUpdate base (env.get_instance_attributes initObj), errs)
          | .typeError m => .error (.typeError m, errs)
          | .valueError m => .error (.valueError m, errs)
      else .ok (base, errs)
    match initStep with
    | .error e => .error e
    | .ok (attributes_data, errs) =>
      let root_object := parse_docstring env root_object attributes_data
      match sel with
      | .selectNone => .ok (root_object, errs)
      | _ =>
          gcCore env cfg fuel node (selNames sel) direct attributes_data
            root_object errs

/-- The part of `get_class_documentation` below the `select_members is
False` early return: member selection and build, then the mutually
exclusive pydantic / marshmallow / dataclass `elif` chain, each branch
overwriting the class's properties with its single tag and emitting only
its own convention's field attributes. -/
def gcCore (env : Env) (cfg : LoaderCfg) (fuel : Nat) (node : ObjectNode)
    (select_members : List String) (direct : List (String × Nat))
    (attributes_data : List (String × AttrData)) (root_object : Obj)
    (errs : List String) : BuildRes Obj :=
  match fuel with
  | 0 => .error (.recursionError, errs)
  | fuel + 1 =>
    let class_ := node.obj
    let all_members := env.getmembers class_
    let members := all_members.filter (fun p =>
      !(p.2 == env.typeId || p.2 == env.objectId) &&
        select cfg p.1 select_members &&
        (dictHas direct p.1 || cfg.select_inherited_members))
    match classMemberLoop env cfg fuel node direct attributes_data members
        root_object errs with
    | .error e => .error e
    | .ok (root_object, errs) =>
      let mroMid := ((env.mro class_).drop 1).dropLast
      if detectsPydantic env cfg class_ then
        match dictGet all_members "__fields__" with
        | none => .error (.keyError "__fields__", errs)
        | some reg =>
          .ok (pydFieldLoop env cfg node mroMid select_members
                (env.dictItems reg) (root_object.setProperties ["pydantic-model"]),
               errs)
      else if detectsMarshmallow env cfg class_ then
        match dictGet all_members "_declared_fields" with
        | none => .error (.keyError "_declared_fields", errs)
        | some reg =>
          .ok (marshFieldLoop env cfg node mroMid select_members
                (env.dictItems reg) (root_object.setProperties ["marshmallow-model"]),
               errs)
      else if detectsDataclass env cfg class_ then
        match dictGet all_members "__dataclass_fields__" with
        | none => .error (.keyError "__dataclass_fields__", errs)
        | some reg =>
          match dcFieldLoop env cfg node mroMid select_members
              ((env.dictItems reg).map (fun p => p.2))
              (root_object.setProperties ["dataclass"]) with
          | .error e => .error (e, errs)
          | .ok ro => .ok (ro, errs)
      else .ok (root_object, errs)

/-- The member loop of `get_class_documentation`: classify each selected
member (class / classmethod / staticmethod / method / property /
declared-map attribute, in that order), skip names matching none, and tag
members absent from the class's own `__dict__` as `"inherited"` (such names
are in the member list exactly when inherited selection is enabled). -/
def classMemberLoop (env : Env) (cfg : LoaderCfg) (fuel : Nat)
    (node : ObjectNode) (direct : List (String × Nat))
    (attributes_data : List (String × AttrData)) (members : List (String × Nat))
    (ro : Obj) (errs : List String) : BuildRes Obj :=
  match fuel with
  | 0 => .error (.recursionError, errs)
  | fuel + 1 =>
    match members with
    | [] => .ok (ro, errs)
    | (member_name, member) :: rest =>
      let child_node := mkObjectNode env member member_name (some node)
      let step : BuildRes (Option Obj) :=
        if child_node.is_class env then
          match get_class_documentation env cfg fuel child_node .noSelection errs with
          | .error e => .error e
          | .ok (c, errs) => .ok (some c, errs)
        else if child_node.is_classmethod env then
          match get_classmethod_documentation env child_node errs with
          | .error e => .error e
          | .ok (c, errs) => .ok (some c, errs)
        else if child_node.is_staticmethod env then
          match get_staticmethod_documentation env child_node errs with
          | .error e => .error e
          | .ok (c, errs) => .ok (some c, errs)
        else if child_node.is_method env then
          match get_regular_method_documentation env child_node errs with
          | .error e => .error e
          | .ok (c, errs) => .ok (some c, errs)
        else if child_node.is_property env then
          match get_property_documentation env child_node errs with
          | .error e => .error e
          | .ok (c, errs) => .ok (some c, errs)
        else
          match dictGet attributes_data member_name with
          | some ad =>
              .ok (some (get_attribute_documentation env child_node (some ad)), errs)
          | none => .ok (none, errs)
      match step with
      | .error e => .error e
      | .ok (none, errs) =>
          classMemberLoop env cfg fuel node direct attributes_data rest ro errs
      | .ok (some child, errs) =>
          let child :=
            if dictHas direct member_name then child
            else child.addProperty "inherited"
          classMemberLoop env cfg fuel node direct attributes_data rest
            (ro.addChild child) errs

end

/-- `Loader.get_object_documentation`: coerce `members is True` to the
empty set, resolve the path (a failure is fatal), dispatch on the leaf
node's classification, then run the docstring-parsing pass over the whole
tree. -/
def get_object_documentation (env : Env) (cfg : LoaderCfg) (fuel : Nat)
    (dotted_path : String) (members : Members) (errs : List String) :
    BuildRes Obj :=
  let sel := members.toSelect
  match get_object_tree env dotted_path with
  | .error e => .error (e, errs)
  | .ok leaf =>
    let res :=
      if leaf.is_module env then get_module_documentation env cfg fuel leaf sel errs
      else if leaf.is_class env then get_class_documentation env cfg fuel leaf sel errs
      else if leaf.is_staticmethod env then get_staticmethod_documentation env leaf errs
      else if leaf.is_classmethod env then get_classmethod_documentation env leaf errs
      else if leaf.is_method env then get_regular_method_documentation env leaf errs
      else if leaf.is_function env then get_function_documentation env leaf errs
      else if leaf.is_property env then get_property_documentation env leaf errs
      else .ok (get_attribute_documentation env leaf none, errs)
    match res with
    | .error e => .error e
    | .ok (root_object, errs) => .ok (parse_all_docstrings env root_object, errs)

/-! ### A default environment for concrete instances -/

/-- A baseline environment in which nothing imports, no attribute resolves
and every predicate is false; concrete counterexample environments override
just the fields they need. -/
def defEnv : Env where
  importMod := fun _ => none
  modName := fun _ => ""
  unwrap := fun o => o
  getattrObj := fun _ _ => none
  getmodule := fun _ => none
  isModule := fun _ => false
  isClass := fun _ => false
  isFunction := fun _ => false
  isCoroutineFunction := fun _ => false
  isPropertyObj := fun _ => false
  isStaticmethodRaw := fun _ => false
  isClassmethodRaw := fun _ => false
  dictOfClass := fun _ => []
  getmembers := fun _ => []
  mro := fun _ => []
  getdoc := fun _ => none
  rawDoc := fun _ => none
  cleandoc := fun s => s
  getsource := fun _ => .error "source not available"
  getsourcelines := fun _ => .oserror "source not available"
  getabsfile := fun _ => ""
  readlinesOfFile := fun _ => .error "no such file"
  signature := fun _ => .ok 0
  regexSearch := fun _ _ => false
  dictItems := fun _ => []
  fieldRequired := fun _ => false
  fieldInfoDescription := fun _ => none
  pydFieldType := fun o => o
  metadataDescription := fun _ => none
  typeOf := fun o => o
  dcFieldName := fun _ => ""
  dcFieldType := fun o => o
  propFget := fun o => o
  propFsetIsNone := fun _ => true
  returnAnnot := fun _ => none
  submodules := fun _ => none
  typeId := 1000000
  objectId := 1000001
  get_module_attributes := fun _ => []
  get_class_attributes := fun _ => []
  get_instance_attributes := fun _ => []
  parseDoc := fun _ _ => 0

/-! ### Concrete regex engine for the filter-chain instances

`searchC` embeds `re.search` of the two compiled patterns the claims use:
`^_` matches names with a leading underscore, `^__init__$` matches exactly
`__init__` (for member names, which contain no newlines). -/

def searchC (pattern name : String) : Bool :=
  if pattern = "^_" then strStartsWith name "_"
  else if pattern = "^__init__$" then name == "__init__"
  else false

/-- The claim's first chain `[("^_", false)]` — the non-negated raw filter
string `"^_"`. -/
def cfgChainA : LoaderCfg := mkLoader searchC ["^_"] false

/-- The claim's second chain `[("^_", false), ("^__init__$", true)]` — raw
filter strings `"^_"` and `"!^__init__$"`. -/
def cfgChainB : LoaderCfg := mkLoader searchC ["^_", "!^__init__$"] false

/-- The corrected first chain `[("^_", true)]` — raw filter `"!^_"`. -/
def cfgChainA' : LoaderCfg := mkLoader searchC ["!^_"] false

/-- The corrected second chain `[("^_", true), ("^__init__$", false)]`. -/
def cfgChainB' : LoaderCfg := mkLoader searchC ["!^_", "^__init__$"] false

/-- The filter fold of `filter_name_out` is decided by the last matching
filter: `keep` ends up `true` when no filter matches (so the initial value
survives) and otherwise is the negation of the last matching filter's
leading-`!` flag. -/
theorem filterFold_eq (name : String) (l : List (String × (String → Bool)))
    (keep : Bool) :
    l.foldl
      (fun keep fr =>
        let is_matching := fr.2 name
        if is_matching then
          (if strStartsWith fr.1 "!" then !is_matching else is_matching)
        else keep)
      keep
    = (match (l.filter (fun f => f.2 name)).getLast? with
       | none => keep
       | some f => !(strStartsWith f.1 "!")) := by
  induction l generalizing keep with
  | nil => rfl
  | cons f rest ih =>
    simp only [List.foldl_cons, List.filter_cons]
    by_cases h : f.2 name
    · simp only [h, if_true, if_pos]
      rw [ih]
      cases hr : rest.filter (fun f => f.2 name) with
      | nil => simp
      | cons a t =>
        cases hgl : (a :: t).getLast? with
        | none => simp at hgl
        | some g => simp [List.getLast?_cons_cons, hgl]
    · simp only [h, Bool.false_eq_true, if_false]
      rw [ih]

/-- `filter_name_out` characterized: a name is filtered out exactly when
some filter matches it and the last matching filter is a negated one
(leading `!`). -/
theorem filter_name_out_eq (cfg : LoaderCfg) (name : String) :
    filter_name_out cfg name
    = (match (cfg.filters.filter (fun f => f.2 name)).getLast? with
       | none => false
       | some f => strStartsWith f.1 "!") := by
  unfold filter_name_out
  by_cases h : cfg.filters.isEmpty
  · rw [if_pos h]
    rw [List.isEmpty_iff] at h
    simp [h]
  · rw [if_neg h, filterFold_eq]
    cases (cfg.filters.filter (fun f => f.2 name)).getLast? with
    | none => rfl
    | some f => simp

/-- Claim C1 as stated is false on the code: with the chain
`[("^_", false)]` (raw filter `"^_"`) the name `"_private"` is *kept*, not
excluded; and with `[("^_", false), ("^__init__$", true)]` (raw filters
`"^_"`, `"!^__init__$"`) the name `"__init__"` is *excluded* and the name
`"_x"` is kept — the exact opposite of the claimed behavior, because a
matching non-negated pattern sets `keep` to true (re-inclusion) and a
matching negated pattern sets it to false (exclusion). -/
theorem pytkdocs_C1_counterexample :
    select cfgChainA "_private" [] = true
    ∧ filter_name_out cfgChainA "_private" = false
    ∧ filter_name_out cfgChainB "__init__" = true
    ∧ filter_name_out cfgChainB "_x" = false := by
  exact ⟨by decide, by decide, by decide, by decide⟩

/-- Claim C1, amended to the code's actual polarity: a matching *negated*
pattern (leading `!`) marks the name for exclusion, a matching non-negated
pattern marks it for re-inclusion, later matches override earlier ones
(formally: the last matching filter decides, and a name matching nothing is
kept); consequently the chain `[("^_", true)]` excludes exactly the
leading-underscore names, and `[("^_", true), ("^__init__$", false)]`
excludes the leading-underscore names except exactly `__init__`. -/
theorem pytkdocs_C1_amended :
    (∀ (cfg : LoaderCfg) (name : String),
      filter_name_out cfg name
      = (match (cfg.filters.filter (fun f => f.2 name)).getLast? with
         | none => false
         | some f => strStartsWith f.1 "!"))
    ∧ (∀ name : String, filter_name_out cfgChainA' name = strStartsWith name "_")
    ∧ (∀ name : String,
        filter_name_out cfgChainB' name
        = (strStartsWith name "_" && !(name == "__init__"))) := by
  have sA : strStartsWith "!^_" "!" = true := by decide
  have sB : strStartsWith "^__init__$" "!" = false := by decide
  have hA : lstrip "!^_" '!' = "^_" := by decide
  have hB : lstrip "^__init__$" '!' = "^__init__$" := by decide
  have hsA : ∀ nm : String, searchC "^_" nm = strStartsWith nm "_" := by
    intro nm; simp [searchC]
  have hsB : ∀ nm : String, searchC "^__init__$" nm = (nm == "__init__") := by
    intro nm
    unfold searchC
    rw [if_neg (by decide), if_pos rfl]
  refine ⟨filter_name_out_eq, fun name => ?_, fun name => ?_⟩
  · rw [show cfgChainA' = ⟨[("!^_", searchC (lstrip "!^_" '!'))], false⟩ from rfl, hA]
    rw [filter_name_out_eq]
    by_cases h : strStartsWith name "_" <;>
      simp [List.filter, hsA, h, sA]
  · rw [show cfgChainB'
        = ⟨[("!^_", searchC (lstrip "!^_" '!')),
            ("^__init__$", searchC (lstrip "^__init__$" '!'))], false⟩ from rfl,
       hA, hB]
    rw [filter_name_out_eq]
    by_cases h1 : strStartsWith name "_"
    · by_cases h2 : name == "__init__"
      · simp [List.filter, hsA, hsB, h1, h2, sB]
      · simp [List.filter, hsA, hsB, h1, h2, sA]
    · by_cases h2 : name == "__init__"
      · have h2' : name = "__init__" := by simpa using h2
        rw [h2'] at h1
        exact absurd (by decide) h1
      · simp [List.filter, hsA, hsB, h1, h2]

/-- Claim C9: a non-empty explicit name set decides selection by exact
membership with the filter chain never consulted (the result is the same
for every filter configuration); with no explicit names an empty chain
keeps every name, and so does a non-empty chain that matches nowhere. -/
theorem pytkdocs_C9 (cfg cfg2 : LoaderCfg) (name : String) (names : List String) :
    (names ≠ [] →
      select cfg name names = names.contains name
      ∧ select cfg name names = select cfg2 name names)
    ∧ (names = [] → cfg.filters = [] → select cfg name names = true)
    ∧ (names = [] → (∀ f ∈ cfg.filters, f.2 name = false) →
        select cfg name names = true) := by
  refine ⟨fun h => ?_, fun h hf => ?_, fun h hm => ?_⟩
  · have hne : names.isEmpty = false := by
      cases names with
      | nil => exact absurd rfl h
      | cons a t => rfl
    constructor <;> simp [select, hne]
  · subst h
    simp [select, filter_name_out, hf]
  · subst h
    have : filter_name_out cfg name = false := by
      rw [filter_name_out_eq]
      have hnil : cfg.filters.filter (fun f => f.2 name) = [] := by
        rw [List.filter_eq_nil_iff]
        intro a ha
        simp [hm a ha]
      rw [hnil]
      rfl
    simp [select, this]

/-- Witness for C9 at concrete inputs: membership decides for the explicit
set `{"x"}`, and the empty chain keeps `"y"`. -/
theorem pytkdocs_C9_witness :
    (select (mkLoader searchC [] false) "x" ["x"] = ["x"].contains "x"
      ∧ select (mkLoader searchC [] false) "x" ["x"]
        = select (mkLoader searchC ["!^_"] false) "x" ["x"])
    ∧ select (mkLoader searchC [] false) "y" [] = true := by
  exact ⟨(pytkdocs_C9 (mkLoader searchC [] false) (mkLoader searchC ["!^_"] false)
            "x" ["x"]).1 (by decide),
         (pytkdocs_C9 (mkLoader searchC [] false) (mkLoader searchC ["!^_"] false)
            "y" []).2.1 rfl rfl⟩

/-! ### Resolver lemmas (C4 / C5) -/

/-- The split of a path never produces the empty segment list. -/
theorem splitDotsAux_ne_nil : ∀ (l acc : List Char), splitDotsAux l acc ≠ [] := by
  intro l
  induction l with
  | nil => intro acc; simp [splitDotsAux]
  | cons c rest ih =>
    intro acc
    by_cases h : c == '.'
    · simp [splitDotsAux, h]
    · simp only [splitDotsAux, h, Bool.false_eq_true, if_false]
      exact ih (c :: acc)

/-- String concatenation on explicit character lists. -/
theorem strMk_append (a b : List Char) :
    String.mk a ++ String.mk b = String.mk (a ++ b) := rfl

/-- Folding `acc ++ "." ++ s` distributes over a prepended accumulator. -/
theorem foldl_dot_hoist (t : List String) :
    ∀ (x y : String),
      t.foldl (fun a s => a ++ "." ++ s) (x ++ y)
      = x ++ t.foldl (fun a s => a ++ "." ++ s) y := by
  induction t with
  | nil => intro x y; rfl
  | cons s t iht =>
    intro x y
    simp only [List.foldl_cons]
    have harg : x ++ y ++ "." ++ s = x ++ (y ++ "." ++ s) := by
      rw [String.append_assoc x y ".", String.append_assoc x (y ++ ".") s]
    rw [harg]
    exact iht x (y ++ "." ++ s)

/-- `joinDots` of a list with at least two elements peels its head. -/
theorem joinDots_cons₂ (a b : String) (t : List String) :
    joinDots (a :: b :: t) = a ++ "." ++ joinDots (b :: t) := by
  show (b :: t).foldl (fun x s => x ++ "." ++ s) a
      = a ++ "." ++ t.foldl (fun x s => x ++ "." ++ s) b
  simp only [List.foldl_cons]
  exact foldl_dot_hoist t (a ++ ".") b

/-- `str.split` / `".".join` round-trip, on the auxiliary split. -/
theorem joinDots_splitDotsAux (l : List Char) :
    ∀ (acc : List Char),
      joinDots (splitDotsAux l acc) = String.mk (acc.reverse ++ l) := by
  induction l with
  | nil => intro acc; simp [splitDotsAux, joinDots]
  | cons c rest ih =>
    intro acc
    by_cases h : c == '.'
    · have hc : c = '.' := by simpa using h
      subst hc
      simp only [splitDotsAux, h, if_true]
      cases hsp : splitDotsAux rest [] with
      | nil => exact absurd hsp (splitDotsAux_ne_nil rest [])
      | cons s0 t0 =>
        rw [joinDots_cons₂, ← hsp, ih []]
        rw [show ("." : String) = String.mk ['.'] from rfl]
        rw [strMk_append, strMk_append]
        simp
    · simp only [splitDotsAux, h, Bool.false_eq_true, if_false]
      rw [ih (c :: acc)]
      simp

/-- Splitting on dots and joining with dots is the identity, as for
Python's `".".join(path.split("."))`. -/
theorem joinDots_splitDots (s : String) : joinDots (splitDots s) = s := by
  cases s with
  | mk data => simpa [splitDots] using joinDots_splitDotsAux data []

/-- A failing `buildChain` only raises `AttributeError`. -/
theorem buildChain_error (env : Env) :
    ∀ (objs : List String) (cur : ObjectNode) (e : PyExc),
      buildChain env cur objs = .error e → ∃ n, e = .attributeError n := by
  intro objs
  induction objs with
  | nil => intro cur e h; simp [buildChain] at h
  | cons n rest ih =>
    intro cur e h
    simp only [buildChain] at h
    cases hg : env.getattrObj cur.obj n with
    | none => rw [hg] at h; exact ⟨n, by simpa using h.symm⟩
    | some o => rw [hg] at h; exact ih _ e h

/-- When every non-empty prefix of the segment list fails to import,
the import loop fails. -/
theorem findModuleRev_none (env : Env) (segs0 : List String)
    (H : ∀ l, l ≠ [] → l <+: segs0 → env.importMod (joinDots l) = none) :
    ∀ (revMods objs : List String), revMods.reverse <+: segs0 →
      findModuleRev env revMods objs = none := by
  intro revMods
  induction revMods with
  | nil => intro objs _; rfl
  | cons seg rest ih =>
    intro objs hpre
    have himp : env.importMod (joinDots (seg :: rest).reverse) = none :=
      H _ (by simp) hpre
    cases rest with
    | nil =>
      have himp' : env.importMod (joinDots [seg]) = none := by simpa using himp
      simp [findModuleRev, himp']
    | cons r rs =>
      simp only [findModuleRev, himp]
      refine ih (seg :: objs) ?_
      refine List.IsPrefix.trans ?_ hpre
      rw [show (seg :: r :: rs).reverse = (r :: rs).reverse ++ [seg] by simp]
      exact List.prefix_append _ _

/-- A proper prefix within `p ++ a :: t` extends `p` by at least the
element `a`. -/
theorem prefix_step {α : Type} (p l : List α) (a : α) (t : List α)
    (h1 : p <+: l) (h2 : l <+: p ++ a :: t) (h3 : l ≠ p) : p ++ [a] <+: l := by
  obtain ⟨u, rfl⟩ := h1
  obtain ⟨v, hv⟩ := h2
  rw [List.append_assoc] at hv
  have huv : u ++ v = a :: t := List.append_cancel_left hv
  cases u with
  | nil => exact absurd (by simp) h3
  | cons x u' =>
    have h' : x :: (u' ++ v) = a :: t := by simpa using huv
    obtain ⟨rfl, -⟩ : x = a ∧ u' ++ v = t := by
      injection h' with ha hb
      exact ⟨ha, hb⟩
    exact ⟨u', by simp⟩

/-- A successful import loop returns the module of the *deepest importable*
non-empty prefix of the segments: the pending objects are exactly the
remaining segments, the returned prefix imports to the returned module,
and — given that every strictly longer prefix already tried by the loop
failed — every strictly longer prefix of the segments fails to import. -/
theorem findModuleRev_some (env : Env) (segs : List String) :
    ∀ (revMods objs0 : List String) (m : Nat) (objs : List String),
      revMods.reverse ++ objs0 = segs →
      (∀ l, l <+: segs → revMods.reverse <+: l → l ≠ revMods.reverse →
        env.importMod (joinDots l) = none) →
      findModuleRev env revMods objs0 = some (m, objs) →
      ∃ pre, pre ≠ [] ∧ pre ++ objs = segs
        ∧ env.importMod (joinDots pre) = some m
        ∧ ∀ l, l <+: segs → pre <+: l → l ≠ pre →
            env.importMod (joinDots l) = none := by
  intro revMods
  induction revMods with
  | nil => intro objs0 m objs _ _ h; simp [findModuleRev] at h
  | cons seg rest ih =>
    intro objs0 m objs hseg Hacc h
    cases rest with
    | nil =>
      simp only [findModuleRev] at h
      cases himp : env.importMod (joinDots [seg].reverse) with
      | some m' =>
        rw [himp] at h
        obtain ⟨hm, ho⟩ : m' = m ∧ objs0 = objs := by simpa using h
        refine ⟨[seg].reverse, by simp, by rw [← ho]; exact hseg,
          by rw [himp, hm], ?_⟩
        intro l hl hpl hne
        exact Hacc l hl hpl hne
      | none => rw [himp] at h; simp at h
    | cons r rs =>
      simp only [findModuleRev] at h
      cases himp : env.importMod (joinDots (seg :: r :: rs).reverse) with
      | some m' =>
        rw [himp] at h
        obtain ⟨hm, ho⟩ : m' = m ∧ objs0 = objs := by simpa using h
        refine ⟨(seg :: r :: rs).reverse, by simp, by rw [← ho]; exact hseg,
          by rw [himp, hm], ?_⟩
        intro l hl hpl hne
        exact Hacc l hl hpl hne
      | none =>
        rw [himp] at h
        have hrev : (seg :: r :: rs).reverse = (r :: rs).reverse ++ [seg] := by
          simp
        have hseg' : (r :: rs).reverse ++ (seg :: objs0) = segs := by
          rw [← hseg, hrev, List.append_assoc]
          rfl
        refine ih (seg :: objs0) m objs hseg' ?_ h
        intro l hl hpl hne
        by_cases hcase : l = (seg :: r :: rs).reverse
        · rw [hcase]
          exact himp
        · have hstep : (r :: rs).reverse ++ [seg] <+: l := by
            refine prefix_step (r :: rs).reverse l seg objs0 hpl ?_ hne
            rw [hseg']
            exact hl
          refine Hacc l hl ?_ hcase
          rw [hrev]
          exact hstep

/-- `buildChain` appends each resolved segment to the dotted path and keeps
the root node. -/
theorem buildChain_ok (env : Env) :
    ∀ (objs : List String) (cur leaf : ObjectNode),
      buildChain env cur objs = .ok leaf →
      leaf.dotted_path
        = objs.foldl (fun acc s => acc ++ "." ++ s) cur.dotted_path
      ∧ leaf.rootNode = cur.rootNode := by
  intro objs
  induction objs with
  | nil =>
    intro cur leaf h
    obtain rfl : cur = leaf := by simpa [buildChain] using h
    exact ⟨rfl, rfl⟩
  | cons n rest ih =>
    intro cur leaf h
    simp only [buildChain] at h
    cases hg : env.getattrObj cur.obj n with
    | none => rw [hg] at h; simp at h
    | some o =>
      rw [hg] at h
      have := ih (mkObjectNode env o n (some cur)) leaf h
      simpa [mkObjectNode, ObjectNode.dotted_path, ObjectNode.rootNode] using this

/-- When `inspect.getmodule` finds nothing anywhere, the re-export
correction never splices. -/
theorem fixChain_id (env : Env) (H2 : ∀ o, env.getmodule o = none) :
    ∀ nd : ObjectNode, fixChain env none nd = nd := by
  intro nd
  induction nd with
  | root o n => rfl
  | child o n p ihp =>
    simp only [fixChain, H2 o]
    by_cases hm : env.isModule p.obj
    · simp [hm]
    · simp [hm, ihp]

/-- Claim C5: the resolver raises `ValueError` exactly on the empty path,
and raises `ImportError` (naming the first segment) when every non-empty
prefix of the path fails to import — in both cases producing no node
chain. -/
theorem pytkdocs_C5 (env : Env) (path : String) :
    (get_object_tree env path
        = .error (.valueError ("path must be a valid Python path, not " ++ path))
      ↔ path = "")
    ∧ (path ≠ "" →
        (∀ l, l ≠ [] → l <+: splitDots path → env.importMod (joinDots l) = none) →
        get_object_tree env path
          = .error (.importError
              ("No module named '" ++ (splitDots path).headD "" ++ "'"))) := by
  constructor
  · constructor
    · intro h
      by_contra hne
      rw [get_object_tree, if_neg hne] at h
      cases hf : findModuleRev env (splitDots path).reverse [] with
      | none => rw [hf] at h; simp at h
      | some pr =>
        obtain ⟨m, objs⟩ := pr
        rw [hf] at h
        cases hb : buildChain env (mkObjectNode env m (env.modName m) none) objs with
        | error e =>
          obtain ⟨nn, rfl⟩ := buildChain_error env objs _ e hb
          simp [hb] at h
        | ok leaf => simp [hb] at h
    · intro h
      rw [get_object_tree, if_pos h]
  · intro hne H
    rw [get_object_tree, if_neg hne]
    rw [findModuleRev_none env (splitDots path) H (splitDots path).reverse []
      (by rw [List.reverse_reverse])]

/-- Witness for C5: the empty path raises the invalid-path error, and in an
environment where nothing imports, a one-segment path raises the not-found
error naming that segment. -/
theorem pytkdocs_C5_witness :
    get_object_tree defEnv ""
      = .error (.valueError "path must be a valid Python path, not ")
    ∧ get_object_tree defEnv "zzz"
      = .error (.importError "No module named 'zzz'") := by
  constructor
  · exact (pytkdocs_C5 defEnv "").1.2 rfl
  · have := (pytkdocs_C5 defEnv "zzz").2 (by decide) (fun l _ _ => rfl)
    simpa using this

/-! ### C4: the resolved chain's path and root name -/

/-- A concrete environment where the deepest importable prefix of
`"a.b.c"` is the package `"a.b"` (whose `__name__` is `"a.b"`), and `c` is
an attribute of it defined in that same module. -/
def envC4 : Env := { defEnv with
  importMod := fun s => if s = "a.b" then some 10 else none,
  modName := fun n => if n = 10 then "a.b" else "",
  getattrObj := fun o n => if o == 10 && n == "c" then some 30 else none,
  getmodule := fun o => if o = 30 then some 10 else none,
  isModule := fun o => o == 10 }

/-- Claim C4 as stated is false on the code: resolving `"a.b.c"` in
`envC4` succeeds with leaf dotted path `"a.b.c"`, but the root node's name
is `"a.b"` — the `__name__` of the deepest importable prefix module — and
not the first segment `"a"` of the input path. -/
theorem pytkdocs_C4_counterexample :
    get_object_tree envC4 "a.b.c" = .ok (.child 30 "c" (.root 10 "a.b"))
    ∧ (ObjectNode.child 30 "c" (.root 10 "a.b")).dotted_path = "a.b.c"
    ∧ (ObjectNode.child 30 "c" (.root 10 "a.b")).rootNode.name = "a.b"
    ∧ (splitDots "a.b.c").headD "" = "a"
    ∧ ("a.b" : String) ≠ "a" :=
  ⟨rfl, rfl, rfl, rfl, by decide⟩

/-- Claim C4, amended: when each loaded module's `__name__` agrees with
its import path and the re-export correction does not apply (modelled by
`inspect.getmodule` finding nothing), a successful resolution returns a
chain whose leaf `dotted_path` equals the input path and whose root node's
name is the *deepest importable* dotted prefix of the path: the root is
the node of a module obtained by importing that non-empty prefix, and
every strictly longer prefix of the path's segments fails to import.
The root name equals the first segment only when that prefix is a single
segment. -/
theorem pytkdocs_C4_amended (env : Env) (path : String) (leaf : ObjectNode)
    (H1 : ∀ s m, env.importMod s = some m → env.modName m = s)
    (H2 : ∀ o, env.getmodule o = none)
    (h : get_object_tree env path = .ok leaf) :
    leaf.dotted_path = path
    ∧ ∃ pre, pre ≠ [] ∧ pre <+: splitDots path
        ∧ leaf.rootNode.name = joinDots pre
        ∧ (∃ m, env.importMod (joinDots pre) = some m
            ∧ leaf.rootNode = .root (env.unwrap m) (env.modName m))
        ∧ ∀ l, l <+: splitDots path → pre <+: l → l ≠ pre →
            env.importMod (joinDots l) = none := by
  by_cases hne : path = ""
  · rw [get_object_tree, if_pos hne] at h; simp at h
  rw [get_object_tree, if_neg hne] at h
  cases hf : findModuleRev env (splitDots path).reverse [] with
  | none => rw [hf] at h; simp at h
  | some pr =>
    obtain ⟨m, objs⟩ := pr
    rw [hf] at h
    cases hb : buildChain env (mkObjectNode env m (env.modName m) none) objs with
    | error e => simp [hb] at h
    | ok leaf0 =>
      obtain rfl : fixChain env none leaf0 = leaf := by simpa [hb] using h
      rw [fixChain_id env H2 leaf0]
      obtain ⟨pre, hpne, heq, him, hmax⟩ :=
        findModuleRev_some env (splitDots path) (splitDots path).reverse []
          m objs (by simp)
          (by
            intro l hl hpl hne2
            rw [List.reverse_reverse] at hpl
            exact absurd
              (hl.eq_of_length (Nat.le_antisymm hl.length_le hpl.length_le))
              (by rw [List.reverse_reverse] at hne2; exact hne2))
          hf
      have hname : env.modName m = joinDots pre := H1 _ _ him
      obtain ⟨hdp, hrt⟩ := buildChain_ok env objs _ leaf0 hb
      have hcur : (mkObjectNode env m (env.modName m) none).dotted_path
          = joinDots pre := by
        simp [mkObjectNode, ObjectNode.dotted_path, hname]
      refine ⟨?_, pre, hpne, ⟨objs, heq⟩, ?_, ⟨m, him, ?_⟩, hmax⟩
      · rw [hdp, hcur]
        have : joinDots (pre ++ objs)
            = objs.foldl (fun acc s => acc ++ "." ++ s) (joinDots pre) := by
          cases pre with
          | nil => exact absurd rfl hpne
          | cons a t => simp [joinDots, List.foldl_append]
        rw [← this, heq, joinDots_splitDots]
      · rw [hrt]
        simp [mkObjectNode, ObjectNode.rootNode, ObjectNode.name, hname]
      · rw [hrt]
        rfl

/-- Witness for the amended C4: in an environment satisfying both
hypotheses, resolving `"a.b.c"` yields leaf path `"a.b.c"` with root name
`"a.b"`, the dotted prefix `["a", "b"]`. -/
def envC4w : Env := { defEnv with
  importMod := fun s => if s = "a.b" then some 10 else none,
  modName := fun n => if n = 10 then "a.b" else "",
  getattrObj := fun o n => if o == 10 && n == "c" then some 30 else none,
  isModule := fun o => o == 10 }

theorem pytkdocs_C4_amended_witness :
    (ObjectNode.child 30 "c" (.root 10 "a.b")).dotted_path = "a.b.c"
    ∧ ∃ pre, pre ≠ [] ∧ pre <+: splitDots "a.b.c"
        ∧ (ObjectNode.child 30 "c" (.root 10 "a.b")).rootNode.name
          = joinDots pre
        ∧ (∃ m, envC4w.importMod (joinDots pre) = some m
            ∧ (ObjectNode.child 30 "c" (.root 10 "a.b")).rootNode
              = .root (envC4w.unwrap m) (envC4w.modName m))
        ∧ ∀ l, l <+: splitDots "a.b.c" → pre <+: l → l ≠ pre →
            envC4w.importMod (joinDots l) = none := by
  refine pytkdocs_C4_amended envC4w "a.b.c" (.child 30 "c" (.root 10 "a.b"))
    ?_ (fun o => rfl) rfl
  intro s m hm
  by_cases hs : s = "a.b"
  · have : m = 10 := by
      rw [show envC4w.importMod s = if s = "a.b" then some 10 else none from rfl,
        if_pos hs] at hm
      simpa using hm.symm
    rw [this, hs]
    rfl
  · rw [show envC4w.importMod s = if s = "a.b" then some 10 else none from rfl,
      if_neg hs] at hm
    simp at hm

/-! ### Entity helper lemmas -/

theorem Obj.data_addChild (o c : Obj) : (o.addChild c).data = o.data := by
  cases o; rfl

theorem Obj.children_addChild (o c : Obj) :
    (o.addChild c).children = o.children ++ [c] := by
  cases o; rfl

theorem Obj.props_addProperty (o : Obj) (p : String) :
    (o.addProperty p).data.properties = o.data.properties ++ [p] := by
  cases o; rfl

theorem Obj.props_setProperties (o : Obj) (ps : List String) :
    (o.setProperties ps).data.properties = ps := by
  cases o; rfl

theorem Obj.children_setProperties (o : Obj) (ps : List String) :
    (o.setProperties ps).children = o.children := by
  cases o; rfl

theorem Obj.docstring_setDocstring (o : Obj) (s : Option String) :
    (o.setDocstring s).data.docstring = s := by
  cases o; rfl

theorem parse_docstring_props (env : Env) (o : Obj) (a : List (String × AttrData)) :
    (parse_docstring env o a).data.properties = o.data.properties := by
  cases o with
  | mk d cs =>
    simp only [parse_docstring]
    split <;> rfl

theorem parse_docstring_children (env : Env) (o : Obj) (a : List (String × AttrData)) :
    (parse_docstring env o a).children = o.children := by
  cases o with
  | mk d cs =>
    simp only [parse_docstring]
    split <;> rfl

/-! ### C2: unobtainable signatures for functions and methods -/

/-- A method node for C2: its parent is the class `1`, its object `2` is a
plain function whose signature cannot be obtained (`TypeError`), and whose
source is perfectly readable. -/
def envC2 : Env := { defEnv with
  isClass := fun o => o == 1,
  isFunction := fun o => o == 2,
  signature := fun o => if o == 2 then .typeError "unsupported callable" else .ok 0,
  getsourcelines := fun o =>
    if o == 2 then .ok "def m(self): ..." 10 else .oserror "n/a" }

/-- Claim C2 as stated is false on the code for methods: a method node
whose signature cannot be obtained makes `get_method_documentation`
propagate the `TypeError` from the unguarded `inspect.signature` call in
the `Method(...)` constructor — no `Method` entity is produced and no
error string is appended (the error list in the propagated state is still
empty). -/
theorem pytkdocs_C2_counterexample :
    get_method_documentation envC2 (.child 2 "m" (.root 1 "C")) none []
      = .error (.typeError "unsupported callable", []) := rfl

/-- Claim C2, amended: for *function* nodes a `TypeError` from the
signature attempt is recoverable — the `Function` entity is still
produced, an error string referencing the dotted path is appended, and the
signature is left absent (provided the subsequent source attempt does not
itself raise an unguarded `TypeError`); for *method* nodes the signature
call is unguarded, so the same failure propagates the exception and no
entity is produced. -/
theorem pytkdocs_C2_amended (env : Env) (node : ObjectNode)
    (errs : List String) (msg : String) :
    (env.signature node.obj = .typeError msg →
      (∀ m, env.getsourcelines node.obj ≠ .typeerror m) →
      ∃ fn errs2, get_function_documentation env node errs = .ok (fn, errs2)
        ∧ fn.data.signature = none
        ∧ ("Couldn't get signature for '" ++ node.dotted_path ++ "': " ++ msg)
            ∈ errs2)
    ∧ (env.signature node.obj = .typeError msg →
      ∃ errs2, get_method_documentation env node none errs
        = .error (.typeError msg, errs2)) := by
  constructor
  · intro hsig hsrc
    unfold get_function_documentation
    simp only [hsig]
    cases hs : env.getsourcelines node.obj with
    | ok t l =>
      exact ⟨_, _, rfl, rfl, by simp⟩
    | oserror m =>
      exact ⟨_, _, rfl, rfl, by simp⟩
    | typeerror m => exact absurd hs (hsrc m)
  · intro hsig
    unfold get_method_documentation
    simp only [hsig]
    cases hs : env.getsourcelines node.obj <;> exact ⟨_, rfl⟩

/-- Witness for the amended C2 at a concrete function and method node. -/
theorem pytkdocs_C2_amended_witness :
    (∃ fn errs2,
      get_function_documentation envC2 (.root 2 "f") [] = .ok (fn, errs2)
      ∧ fn.data.signature = none
      ∧ ("Couldn't get signature for 'f': unsupported callable") ∈ errs2)
    ∧ ∃ errs2, get_method_documentation envC2 (.child 2 "m" (.root 1 "C")) none []
        = .error (.typeError "unsupported callable", errs2) := by
  constructor
  · exact (pytkdocs_C2_amended envC2 (.root 2 "f") [] "unsupported callable").1
      rfl (fun m h => by simp [envC2, ObjectNode.obj] at h)
  · exact (pytkdocs_C2_amended envC2 (.child 2 "m" (.root 1 "C")) []
      "unsupported callable").2 rfl

/-! ### C3: attribute names absent from the declared-attribute map -/

/-- An environment whose class `1` has an empty declared-attribute map, so
the name `"x"` is absent from the map of its scope. -/
def envC3 : Env := { defEnv with isClass := fun o => o == 1 }

/-- Claim C3 holds for `get_attribute_documentation` (empty docstring,
absent type) but the dataclass-field path contradicts it: with the same
absent name, `get_annotated_dataclass_field` looks the name up with the
`.get(name, {})` default and then indexes the empty default with
`["docstring"]`, raising `KeyError` instead of emitting an `Attribute`.
The dead `{}` default shows the graceful behavior was the intent; the
direct indexing is the slip. -/
theorem pytkdocs_C3 :
    get_annotated_dataclass_field envC3 (.child 3 "x" (.root 1 "C")) none
      = .error (.keyError "docstring")
    ∧ (get_attribute_documentation envC3 (.child 3 "x" (.root 1 "C")) none).data.docstring
      = some ""
    ∧ (get_attribute_documentation envC3 (.child 3 "x" (.root 1 "C")) none).data.attr_type
      = none :=
  ⟨rfl, rfl, rfl⟩

/-! ### C6: blanking of unchanged special-method docstrings -/

/-- A successful `get_method_documentation` produces a `Method` whose
docstring is `inspect.getdoc` of the node's object and whose properties
extend the passed list with `"async"` for coroutines. -/
theorem gmd_ok (env : Env) (node : ObjectNode) (po : Option (List String))
    (errs : List String) (sig : Nat)
    (hsig : env.signature node.obj = .ok sig) :
    ∃ m errs2, get_method_documentation env node po errs = .ok (m, errs2)
      ∧ m.data.docstring = env.getdoc node.obj
      ∧ m.data.properties
        = ((if node.is_coroutine_function env then some (po.getD [] ++ ["async"])
            else po).getD [])
      ∧ m.data.signature = some sig := by
  unfold get_method_documentation
  simp only [hsig]
  cases hs : env.getsourcelines node.obj <;> exact ⟨_, _, rfl, rfl, rfl, rfl⟩

/-- The ancestor walk blanks the docstring exactly when it matches the
docstring of the first ancestor that resolves the name. -/
theorem specialDocstring_split (env : Env) (name : String) (doc : Option String)
    (l1 : List Nat) (c : Nat) (l2 : List Nat) (pm : Nat)
    (h1 : ∀ a ∈ l1, env.getattrObj a name = none)
    (h2 : env.getattrObj c name = some pm) :
    specialDocstring env name doc (l1 ++ c :: l2)
      = (if doc = env.getdoc pm then some "" else doc) := by
  induction l1 with
  | nil => simp [specialDocstring, h2]
  | cons a t ih =>
    have ha : env.getattrObj a name = none := h1 a (by simp)
    simp only [List.cons_append, specialDocstring, ha]
    exact ih (fun b hb => h1 b (by simp [hb]))

/-- Claim C6: for an ordinary method whose name matches the reserved
double-delimiter pattern, if its resolved docstring equals the docstring
of the same-named method on the first ancestor (in linearized order) that
resolves it, the emitted `Method`'s docstring is blanked to `""`; when
they differ in any way the original docstring is preserved. -/
theorem pytkdocs_C6 (env : Env) (node p : ObjectNode) (errs : List String)
    (sig : Nat) (l1 l2 : List Nat) (c pm : Nat)
    (hp : node.parentOpt = some p)
    (hspecial : reSpecialMatch node.name = true)
    (hsig : env.signature node.obj = .ok sig)
    (hmro : (env.mro p.obj).drop 1 = l1 ++ c :: l2)
    (hno : ∀ a ∈ l1, env.getattrObj a node.name = none)
    (hc : env.getattrObj c node.name = some pm) :
    ∃ m errs2, get_regular_method_documentation env node errs = .ok (m, errs2)
      ∧ m.data.docstring
        = (if env.getdoc node.obj = env.getdoc pm then some ""
           else env.getdoc node.obj) := by
  obtain ⟨m0, errs2, hm, hdoc, _, _⟩ := gmd_ok env node none errs sig hsig
  refine ⟨m0.setDocstring
    (specialDocstring env node.name m0.data.docstring ((env.mro p.obj).drop 1)),
    errs2, ?_, ?_⟩
  · unfold get_regular_method_documentation
    rw [hm, hp, hspecial]
    simp
  · rw [Obj.docstring_setDocstring, hmro, hdoc,
      specialDocstring_split env node.name _ l1 c l2 pm hno hc]

/-- A concrete inheritance hierarchy for C6: class `1` has linearized
ancestors `[2, 3]`; the name `__init__` does not resolve on `2` but
resolves to method `9` on `3`, and both docstrings are `"d"`. -/
def envC6 : Env := { defEnv with
  isClass := fun o => o == 1,
  isFunction := fun o => o == 4,
  mro := fun o => if o == 1 then [1, 2, 3] else [],
  getattrObj := fun o n => if o == 3 && n == "__init__" then some 9 else none,
  getdoc := fun o => if o == 4 || o == 9 then some "d" else none }

/-- Witness for C6: the inherited-unchanged `__init__` docstring is
blanked to the empty string. -/
theorem pytkdocs_C6_witness :
    ∃ m errs2,
      get_regular_method_documentation envC6 (.child 4 "__init__" (.root 1 "C")) []
        = .ok (m, errs2)
      ∧ m.data.docstring
        = (if envC6.getdoc 4 = envC6.getdoc 9 then some "" else envC6.getdoc 4) := by
  have := pytkdocs_C6 envC6 (.child 4 "__init__" (.root 1 "C")) (.root 1 "C")
    [] 0 [2] [] 3 9 rfl (by decide) rfl rfl
    (by intro a ha
        have : a = 2 := by simpa using ha
        subst this
        rfl)
    rfl
  exact this

/-! ### C8: module source retrieval and its error reporting -/

/-- An empty loader configuration (no filters, no inherited members). -/
def cfgEmpty : LoaderCfg := mkLoader searchC [] false

/-- A module whose live source retrieval fails but whose resident file
opens fine and is empty. -/
def envC8 : Env := { defEnv with
  isModule := fun o => o == 5,
  getsource := fun _ => .error "could not get source code",
  getabsfile := fun _ => "/m.py",
  readlinesOfFile := fun p => if p == "/m.py" then .ok [] else .error "no such file" }

/-- A module whose live source retrieval fails and whose resident file
cannot be read either. -/
def envC8f : Env := { defEnv with
  isModule := fun o => o == 5,
  getsource := fun _ => .error "could not get source code",
  getabsfile := fun _ => "/m.py",
  readlinesOfFile := fun _ => .error "no such file" }

/-- Claim C8 as stated is false on the code: when the live retrieval fails
and the fallback file read succeeds but returns empty content, the emitted
`Module` entity has an absent source and *no* error string is recorded
(the error list stays empty) — contradicting "for every emitted Module
entity with absent source, a corresponding error string was recorded". -/
theorem pytkdocs_C8_counterexample :
    get_module_documentation envC8 cfgEmpty 1 (.root 5 "m") .selectNone []
      = .ok (mkModuleObj "m" "m" "/m.py" none none, []) := rfl

/-- Claim C8, amended: when the live retrieval fails, a failing fallback
read appends the recoverable error (with the module's dotted path) and
leaves the source absent; a fallback read that succeeds with empty content
leaves the source absent *without* recording an error; a fallback read
with non-empty content yields a present source and no error.  So an
absent source implies a recorded error *or* an empty resident file. -/
theorem pytkdocs_C8_amended (env : Env) (cfg : LoaderCfg) (fuel : Nat)
    (node : ObjectNode) (errs : List String) (msg : String)
    (hsrc : env.getsource node.obj = .error msg) :
    (∀ m2, env.readlinesOfFile (node.file_path env) = .error m2 →
      ∃ o, get_module_documentation env cfg (fuel + 1) node .selectNone errs
          = .ok (o, errs ++ ["Couldn't read source for '" ++ node.dotted_path
              ++ "': " ++ msg])
        ∧ o.data.source = none)
    ∧ (env.readlinesOfFile (node.file_path env) = .ok [] →
      ∃ o, get_module_documentation env cfg (fuel + 1) node .selectNone errs
          = .ok (o, errs)
        ∧ o.data.source = none)
    ∧ (∀ code, code ≠ [] → env.readlinesOfFile (node.file_path env) = .ok code →
      ∃ o, get_module_documentation env cfg (fuel + 1) node .selectNone errs
          = .ok (o, errs)
        ∧ o.data.source = some (SourceS.mk (String.join code) 1)) := by
  refine ⟨fun m2 hrd => ?_, fun hrd => ?_, fun code hne hrd => ?_⟩
  · unfold get_module_documentation
    simp only [hsrc, hrd]
    exact ⟨_, rfl, rfl⟩
  · unfold get_module_documentation
    simp only [hsrc, hrd]
    exact ⟨_, rfl, rfl⟩
  · unfold get_module_documentation
    simp only [hsrc, hrd]
    have hni : code.isEmpty = false := by
      cases code with
      | nil => exact absurd rfl hne
      | cons a t => rfl
    simp only [hni, Bool.false_eq_true, if_false]
    exact ⟨_, rfl, rfl⟩

/-- Witness for the amended C8: the both-fail case records the error with
an absent source, and the empty-file case leaves the source absent with no
error. -/
theorem pytkdocs_C8_amended_witness :
    (∃ o, get_module_documentation envC8f cfgEmpty 1 (.root 5 "m") .selectNone []
        = .ok (o, ["Couldn't read source for 'm': could not get source code"])
      ∧ o.data.source = none)
    ∧ ∃ o, get_module_documentation envC8 cfgEmpty 1 (.root 5 "m") .selectNone []
        = .ok (o, [])
      ∧ o.data.source = none := by
  constructor
  · have := (pytkdocs_C8_amended envC8f cfgEmpty 0 (.root 5 "m") []
      "could not get source code" rfl).1 "no such file" rfl
    simpa using this
  · have := (pytkdocs_C8_amended envC8 cfgEmpty 0 (.root 5 "m") []
      "could not get source code" rfl).2.1 rfl
    simpa using this

/-! ### C10: `members=True` coincides with `members=None` -/

/-- In the module builder, the empty explicit set and `None` are
indistinguishable: both pass the `is False` check and both normalize to
the empty set via `select_members or set()`. -/
theorem gmEq (env : Env) (cfg : LoaderCfg) (fuel : Nat) (node : ObjectNode)
    (errs : List String) :
    get_module_documentation env cfg fuel node (.explicitSel []) errs
      = get_module_documentation env cfg fuel node .noSelection errs := by
  cases fuel with
  | zero => rfl
  | succ f => rfl

/-- Same for the class builder. -/
theorem gcEq (env : Env) (cfg : LoaderCfg) (fuel : Nat) (node : ObjectNode)
    (errs : List String) :
    get_class_documentation env cfg fuel node (.explicitSel []) errs
      = get_class_documentation env cfg fuel node .noSelection errs := by
  cases fuel with
  | zero => rfl
  | succ f => rfl

/-- Claim C10: passing `members=True` to the builder is exactly equivalent
to passing `members=None` — `True` is coerced to the empty set before
dispatch and the empty set and `None` normalize identically inside the
module and class builders, so the built tree (and error list) coincide for
every path, filter configuration, environment and recursion budget. -/
theorem pytkdocs_C10 (env : Env) (cfg : LoaderCfg) (fuel : Nat) (path : String)
    (errs : List String) :
    get_object_documentation env cfg fuel path .all errs
      = get_object_documentation env cfg fuel path .auto errs := by
  unfold get_object_documentation
  simp only [Members.toSelect]
  cases hot : get_object_tree env path with
  | error e => rfl
  | ok leaf =>
    have hgm := gmEq env cfg fuel leaf errs
    have hgc := gcEq env cfg fuel leaf errs
    cases hm : leaf.is_module env <;> cases hc : leaf.is_class env <;>
      simp [hm, hc, hgm, hgc]

/-! ### C7: mutually exclusive structured-declaration detection

The proof needs to know the `properties` lists every child builder can
produce, to show that no member-loop child carries another convention's
field tag. -/

/-- No structured-declaration field tag among an entity's properties. -/
def noFieldTags (o : Obj) : Prop :=
  "pydantic-field" ∉ o.data.properties
  ∧ "marshmallow-field" ∉ o.data.properties
  ∧ "dataclass-field" ∉ o.data.properties

theorem Obj.props_setDocstring (o : Obj) (s : Option String) :
    (o.setDocstring s).data.properties = o.data.properties := by
  cases o; rfl

/-- The properties of any successfully built method. -/
theorem gmd_props (env : Env) (node : ObjectNode) (po : Option (List String))
    (errs : List String) (m : Obj) (e : List String)
    (h : get_method_documentation env node po errs = .ok (m, e)) :
    m.data.properties
      = ((if node.is_coroutine_function env then some (po.getD [] ++ ["async"])
          else po).getD []) := by
  simp only [get_method_documentation] at h
  repeat split at h
  all_goals try simp at h
  all_goals
    obtain ⟨rfl, rfl⟩ := by simpa using h
  all_goals first
    | rfl
    | simp_all [mkMethodObj, Obj.data]

/-- A regular method has the properties of its underlying method build
(the docstring blanking touches only the docstring). -/
theorem grm_props (env : Env) (node : ObjectNode) (errs : List String)
    (m : Obj) (e : List String)
    (h : get_regular_method_documentation env node errs = .ok (m, e)) :
    ∃ m0 e0, get_method_documentation env node none errs = .ok (m0, e0)
      ∧ m.data.properties = m0.data.properties := by
  unfold get_regular_method_documentation at h
  split at h
  · simp at h
  · rename_i m0 e0 heq
    split at h
    · obtain ⟨rfl, rfl⟩ := by simpa using h
      exact ⟨m0, e0, heq, rfl⟩
    · split at h
      · obtain ⟨rfl, rfl⟩ := by simpa using h
        exact ⟨m0, e0, heq, Obj.props_setDocstring m0 _⟩
      · obtain ⟨rfl, rfl⟩ := by simpa using h
        exact ⟨m0, e0, heq, rfl⟩

/-- The properties of any successfully built property attribute. -/
theorem gpd_props (env : Env) (node : ObjectNode) (errs : List String)
    (c : Obj) (e : List String)
    (h : get_property_documentation env node errs = .ok (c, e)) :
    c.data.properties
      = ["property", if env.propFsetIsNone node.obj then "readonly"
         else "writable"] := by
  simp only [get_property_documentation] at h
  repeat split at h
  all_goals
    obtain ⟨rfl, rfl⟩ := by simpa using h
  all_goals first
    | rfl
    | simp_all [mkAttributeObj, Obj.data]

/-- A declared-map attribute has no properties. -/
theorem gad_props (env : Env) (node : ObjectNode) (ad : Option AttrData) :
    (get_attribute_documentation env node ad).data.properties = [] := rfl

/-- The properties of a pydantic field attribute. -/
theorem gpfd_props (env : Env) (node : ObjectNode) :
    (get_pydantic_field_documentation env node).data.properties
      = (if env.fieldRequired node.obj then ["pydantic-field", "required"]
         else ["pydantic-field"]) := rfl

/-- The properties of a marshmallow field attribute. -/
theorem gmfd_props (env : Env) (node : ObjectNode) :
    (get_marshmallow_field_documentation env node).data.properties
      = (if env.fieldRequired node.obj then ["marshmallow-field", "required"]
         else ["marshmallow-field"]) := rfl

/-- The properties of a successfully built dataclass field attribute. -/
theorem gadf_props (env : Env) (node : ObjectNode) (ad : Option AttrData)
    (c : Obj) (h : get_annotated_dataclass_field env node ad = .ok c) :
    c.data.properties = ["dataclass-field"] := by
  simp only [get_annotated_dataclass_field] at h
  split at h
  · simp at h
  · split at h
    · simp at h
    · obtain rfl := by simpa using h
      rfl

/-! #### Field-loop lemmas -/

theorem pfl_data (env : Env) (cfg : LoaderCfg) (node : ObjectNode)
    (mroMid : List Nat) (selm : List String) :
    ∀ (items : List (String × Nat)) (ro : Obj),
      (pydFieldLoop env cfg node mroMid selm items ro).data = ro.data := by
  intro items
  induction items with
  | nil => intro ro; rfl
  | cons it rest ih =>
    intro ro
    obtain ⟨fn, mf⟩ := it
    simp only [pydFieldLoop]
    split
    · rw [ih, Obj.data_addChild]
    · rw [ih]

theorem pfl_children (env : Env) (cfg : LoaderCfg) (node : ObjectNode)
    (mroMid : List Nat) (selm : List String) :
    ∀ (items : List (String × Nat)) (ro : Obj),
      ∃ new, (pydFieldLoop env cfg node mroMid selm items ro).children
          = ro.children ++ new
        ∧ ∀ ch ∈ new, ch.data.properties = ["pydantic-field"]
            ∨ ch.data.properties = ["pydantic-field", "required"] := by
  intro items
  induction items with
  | nil => intro ro; exact ⟨[], by simp [pydFieldLoop], by simp⟩
  | cons it rest ih =>
    intro ro
    obtain ⟨fn, mf⟩ := it
    simp only [pydFieldLoop]
    split
    · obtain ⟨new, hch, hall⟩ :=
        ih (ro.addChild (get_pydantic_field_documentation env
          (mkObjectNode env mf fn (some node))))
      refine ⟨get_pydantic_field_documentation env
          (mkObjectNode env mf fn (some node)) :: new, ?_, ?_⟩
      · rw [hch, Obj.children_addChild]
        simp
      · intro ch hch2
        rcases List.mem_cons.mp hch2 with rfl | hmem
        · rw [gpfd_props]
          by_cases hr : env.fieldRequired (mkObjectNode env mf fn (some node)).obj <;>
            simp [hr]
        · exact hall ch hmem
    · exact ih ro

theorem mfl_data (env : Env) (cfg : LoaderCfg) (node : ObjectNode)
    (mroMid : List Nat) (selm : List String) :
    ∀ (items : List (String × Nat)) (ro : Obj),
      (marshFieldLoop env cfg node mroMid selm items ro).data = ro.data := by
  intro items
  induction items with
  | nil => intro ro; rfl
  | cons it rest ih =>
    intro ro
    obtain ⟨fn, mf⟩ := it
    simp only [marshFieldLoop]
    split
    · rw [ih, Obj.data_addChild]
    · rw [ih]

theorem mfl_children (env : Env) (cfg : LoaderCfg) (node : ObjectNode)
    (mroMid : List Nat) (selm : List String) :
    ∀ (items : List (String × Nat)) (ro : Obj),
      ∃ new, (marshFieldLoop env cfg node mroMid selm items ro).children
          = ro.children ++ new
        ∧ ∀ ch ∈ new, ch.data.properties = ["marshmallow-field"]
            ∨ ch.data.properties = ["marshmallow-field", "required"] := by
  intro items
  induction items with
  | nil => intro ro; exact ⟨[], by simp [marshFieldLoop], by simp⟩
  | cons it rest ih =>
    intro ro
    obtain ⟨fn, mf⟩ := it
    simp only [marshFieldLoop]
    split
    · obtain ⟨new, hch, hall⟩ :=
        ih (ro.addChild (get_marshmallow_field_documentation env
          (mkObjectNode env mf fn (some node))))
      refine ⟨get_marshmallow_field_documentation env
          (mkObjectNode env mf fn (some node)) :: new, ?_, ?_⟩
      · rw [hch, Obj.children_addChild]
        simp
      · intro ch hch2
        rcases List.mem_cons.mp hch2 with rfl | hmem
        · rw [gmfd_props]
          by_cases hr : env.fieldRequired (mkObjectNode env mf fn (some node)).obj <;>
            simp [hr]
        · exact hall ch hmem
    · exact ih ro

theorem dcl_data (env : Env) (cfg : LoaderCfg) (node : ObjectNode)
    (mroMid : List Nat) (selm : List String) :
    ∀ (items : List Nat) (ro ro3 : Obj),
      dcFieldLoop env cfg node mroMid selm items ro = .ok ro3 →
      ro3.data = ro.data := by
  intro items
  induction items with
  | nil =>
    intro ro ro3 h
    obtain rfl : ro = ro3 := by simpa [dcFieldLoop] using h
    rfl
  | cons f rest ih =>
    intro ro ro3 h
    simp only [dcFieldLoop] at h
    split at h
    · split at h
      · simp at h
      · rw [ih _ ro3 h, Obj.data_addChild]
    · exact ih ro ro3 h

theorem dcl_children (env : Env) (cfg : LoaderCfg) (node : ObjectNode)
    (mroMid : List Nat) (selm : List String) :
    ∀ (items : List Nat) (ro ro3 : Obj),
      dcFieldLoop env cfg node mroMid selm items ro = .ok ro3 →
      ∃ new, ro3.children = ro.children ++ new
        ∧ ∀ ch ∈ new, ch.data.properties = ["dataclass-field"] := by
  intro items
  induction items with
  | nil =>
    intro ro ro3 h
    obtain rfl : ro = ro3 := by simpa [dcFieldLoop] using h
    exact ⟨[], by simp, by simp⟩
  | cons f rest ih =>
    intro ro ro3 h
    simp only [dcFieldLoop] at h
    split at h
    · split at h
      · simp at h
      · rename_i child hfield
        obtain ⟨new, hch, hall⟩ := ih _ ro3 h
        refine ⟨child :: new, ?_, ?_⟩
        · rw [hch, Obj.children_addChild]
          simp
        · intro ch hch2
          rcases List.mem_cons.mp hch2 with rfl | hmem
          · exact gadf_props env _ none ch hfield
          · exact hall ch hmem
    · exact ih ro ro3 h

/-! #### Member-loop and class-shape lemmas -/

/-- The class member loop never touches the class object's own data
(it only appends children). -/
theorem cml_data (env : Env) (cfg : LoaderCfg) :
    ∀ (fuel : Nat) (node : ObjectNode) (direct : List (String × Nat))
      (ad : List (String × AttrData)) (members : List (String × Nat))
      (ro : Obj) (errs : List String) (ro' : Obj) (errs' : List String),
      classMemberLoop env cfg fuel node direct ad members ro errs
        = .ok (ro', errs') →
      ro'.data = ro.data := by
  intro fuel
  induction fuel with
  | zero =>
    intro node direct ad members ro errs ro' errs' h
    simp [classMemberLoop] at h
  | succ f ih =>
    intro node direct ad members ro errs ro' errs' h
    cases members with
    | nil =>
      obtain ⟨rfl, rfl⟩ : ro = ro' ∧ errs = errs' := by
        simpa [classMemberLoop] using h
      rfl
    | cons hd tl =>
      obtain ⟨mn, m⟩ := hd
      simp only [classMemberLoop] at h
      split at h
      · simp at h
      · exact ih node direct ad tl ro _ ro' errs' h
      · rw [ih node direct ad tl _ _ ro' errs' h]
        split <;> rw [Obj.data_addChild]

/-- The properties of a successfully built class are empty or exactly one
structured-declaration tag. -/
theorem gcCore_props (env : Env) (cfg : LoaderCfg) :
    ∀ (fuel : Nat) (node : ObjectNode) (selm : List String)
      (direct : List (String × Nat)) (ad : List (String × AttrData))
      (ro : Obj) (errs : List String) (c : Obj) (e : List String),
      gcCore env cfg fuel node selm direct ad ro errs = .ok (c, e) →
      c.data.properties = ro.data.properties
      ∨ c.data.properties = ["pydantic-model"]
      ∨ c.data.properties = ["marshmallow-model"]
      ∨ c.data.properties = ["dataclass"] := by
  intro fuel node selm direct ad ro errs c e h
  cases fuel with
  | zero => simp [gcCore] at h
  | succ f =>
    simp only [gcCore] at h
    split at h
    · simp at h
    · rename_i ro2 errs2 hcml
      have hro2 : ro2.data = ro.data := cml_data env cfg _ _ _ _ _ _ _ _ _ hcml
      split at h
      · split at h
        · simp at h
        · obtain ⟨rfl, rfl⟩ := by simpa using h
          right; left
          rw [pfl_data, Obj.props_setProperties]
      · split at h
        · split at h
          · simp at h
          · obtain ⟨rfl, rfl⟩ := by simpa using h
            right; right; left
            rw [mfl_data, Obj.props_setProperties]
        · split at h
          · split at h
            · simp at h
            · split at h
              · simp at h
              · rename_i ro3 hdcl
                obtain ⟨rfl, rfl⟩ := by simpa using h
                right; right; right
                rw [dcl_data env cfg _ _ _ _ _ _ hdcl, Obj.props_setProperties]
          · obtain ⟨rfl, rfl⟩ := by simpa using h
            left
            rw [hro2]

/-- The properties of any successfully built class entity. -/
theorem gc_props (env : Env) (cfg : LoaderCfg) (fuel : Nat) (node : ObjectNode)
    (sel : SelectMembers) (errs : List String) (c : Obj) (e : List String)
    (h : get_class_documentation env cfg fuel node sel errs = .ok (c, e)) :
    c.data.properties = []
    ∨ c.data.properties = ["pydantic-model"]
    ∨ c.data.properties = ["marshmallow-model"]
    ∨ c.data.properties = ["dataclass"] := by
  cases fuel with
  | zero => simp [get_class_documentation] at h
  | succ f =>
    simp only [get_class_documentation] at h
    split at h
    · simp at h
    · rename_i ad2 errs2 hinit
      have hparse : (parse_docstring env
          (mkClassObj node.name node.dotted_path (node.file_path env)
            (env.cleandoc ((env.rawDoc node.obj).getD ""))) ad2).data.properties
          = [] := by
        rw [parse_docstring_props]
        rfl
      split at h
      · obtain ⟨rfl, rfl⟩ := by simpa using h
        left
        exact hparse
      · rcases gcCore_props env cfg _ _ _ _ _ _ _ _ _ h with h4 | h4 | h4 | h4
        · left; rw [h4, hparse]
        · right; left; exact h4
        · right; right; left; exact h4
        · right; right; right; exact h4

/-! #### No child of the member loop carries a field tag -/

theorem noFieldTags_congr (a b : Obj)
    (h : a.data.properties = b.data.properties) (hb : noFieldTags b) :
    noFieldTags a := by
  obtain ⟨h1, h2, h3⟩ := hb
  exact ⟨by rw [h]; exact h1, by rw [h]; exact h2, by rw [h]; exact h3⟩

theorem noFieldTags_gc (env : Env) (cfg : LoaderCfg) (fuel : Nat)
    (node : ObjectNode) (sel : SelectMembers) (errs : List String) (c : Obj)
    (e : List String)
    (h : get_class_documentation env cfg fuel node sel errs = .ok (c, e)) :
    noFieldTags c := by
  rcases gc_props env cfg fuel node sel errs c e h with h4 | h4 | h4 | h4 <;>
    exact ⟨by rw [h4]; decide, by rw [h4]; decide, by rw [h4]; decide⟩

theorem noFieldTags_method (env : Env) (node : ObjectNode)
    (po : Option (List String)) (errs : List String) (m : Obj) (e : List String)
    (h : get_method_documentation env node po errs = .ok (m, e))
    (hpo : po = none ∨ po = some ["classmethod"] ∨ po = some ["staticmethod"]) :
    noFieldTags m := by
  have hp := gmd_props env node po errs m e h
  rcases hpo with rfl | rfl | rfl <;>
    by_cases hc : node.is_coroutine_function env <;>
      refine ⟨?_, ?_, ?_⟩ <;> rw [hp] <;> simp [hc]

theorem noFieldTags_gpd (env : Env) (node : ObjectNode) (errs : List String)
    (c : Obj) (e : List String)
    (h : get_property_documentation env node errs = .ok (c, e)) :
    noFieldTags c := by
  have hp := gpd_props env node errs c e h
  refine ⟨?_, ?_, ?_⟩ <;> rw [hp] <;>
    by_cases hfs : env.propFsetIsNone node.obj <;> simp [hfs]

theorem noFieldTags_gad (env : Env) (node : ObjectNode) (ad : Option AttrData) :
    noFieldTags (get_attribute_documentation env node ad) := by
  refine ⟨?_, ?_, ?_⟩ <;> rw [gad_props] <;> simp

theorem noFieldTags_addInherited (o : Obj) (h : noFieldTags o) :
    noFieldTags (o.addProperty "inherited") := by
  obtain ⟨h1, h2, h3⟩ := h
  refine ⟨?_, ?_, ?_⟩ <;> rw [Obj.props_addProperty] <;> simp [h1, h2, h3]

/-- Every child the class member loop appends is free of structured-
declaration field tags (it is a class, method, property or plain declared
attribute, possibly tagged `"inherited"` on top). -/
theorem cml_children (env : Env) (cfg : LoaderCfg) :
    ∀ (fuel : Nat) (node : ObjectNode) (direct : List (String × Nat))
      (ad : List (String × AttrData)) (members : List (String × Nat))
      (ro : Obj) (errs : List String) (ro' : Obj) (errs' : List String),
      classMemberLoop env cfg fuel node direct ad members ro errs
        = .ok (ro', errs') →
      ∃ new, ro'.children = ro.children ++ new ∧ ∀ ch ∈ new, noFieldTags ch := by
  intro fuel
  induction fuel with
  | zero =>
    intro node direct ad members ro errs ro' errs' h
    simp [classMemberLoop] at h
  | succ f ih =>
    intro node direct ad members ro errs ro' errs' h
    cases members with
    | nil =>
      obtain ⟨rfl, rfl⟩ : ro = ro' ∧ errs = errs' := by
        simpa [classMemberLoop] using h
      exact ⟨[], by simp, by simp⟩
    | cons hd tl =>
      obtain ⟨mn, m⟩ := hd
      simp only [classMemberLoop] at h
      split at h
      · simp at h
      · exact ih node direct ad tl ro _ ro' errs' h
      · rename_i child errs2 hstep
        obtain ⟨new, hch, hall⟩ := ih node direct ad tl _ _ ro' errs' h
        have hnf : noFieldTags child := by
          split at hstep
          · -- class child
            split at hstep
            · simp at hstep
            · rename_i c0 e0 heq
              obtain ⟨rfl, rfl⟩ : c0 = child ∧ e0 = errs2 := by simpa using hstep
              exact noFieldTags_gc env cfg f _ _ _ c0 e0 heq
          · split at hstep
            · -- classmethod child
              split at hstep
              · simp at hstep
              · rename_i c0 e0 heq
                obtain ⟨rfl, rfl⟩ : c0 = child ∧ e0 = errs2 := by simpa using hstep
                exact noFieldTags_method env _ (some ["classmethod"]) _ c0 e0 heq
                  (Or.inr (Or.inl rfl))
            · split at hstep
              · -- staticmethod child
                split at hstep
                · simp at hstep
                · rename_i c0 e0 heq
                  obtain ⟨rfl, rfl⟩ : c0 = child ∧ e0 = errs2 := by
                    simpa using hstep
                  exact noFieldTags_method env _ (some ["staticmethod"]) _ c0 e0
                    heq (Or.inr (Or.inr rfl))
              · split at hstep
                · -- regular method child
                  split at hstep
                  · simp at hstep
                  · rename_i c0 e0 heq
                    obtain ⟨rfl, rfl⟩ : c0 = child ∧ e0 = errs2 := by
                      simpa using hstep
                    obtain ⟨m0, e1, hgmd, hpr⟩ := grm_props env _ _ c0 e0 heq
                    exact noFieldTags_congr c0 m0 hpr
                      (noFieldTags_method env _ none _ m0 e1 hgmd (Or.inl rfl))
                · split at hstep
                  · -- property child
                    split at hstep
                    · simp at hstep
                    · rename_i c0 e0 heq
                      obtain ⟨rfl, rfl⟩ : c0 = child ∧ e0 = errs2 := by
                        simpa using hstep
                      exact noFieldTags_gpd env _ _ c0 e0 heq
                  · -- declared-attribute child
                    split at hstep
                    · rename_i ad2 heq
                      obtain ⟨rfl, rfl⟩ := by simpa using hstep
                      exact noFieldTags_gad env _ (some ad2)
                    · simp at hstep
        refine ⟨(if dictHas direct mn then child
                  else child.addProperty "inherited") :: new, ?_, ?_⟩
        · rw [hch, Obj.children_addChild]
          simp
        · intro ch hmem
          rcases List.mem_cons.mp hmem with rfl | hmem2
          · split
            · exact hnf
            · exact noFieldTags_addInherited child hnf
          · exact hall ch hmem2

/-! #### The mutual-exclusion theorem -/

/-- Core of C7, at the level of `gcCore` (after the early-return): with an
untagged, childless class entity at entry, the `elif` chain applies at
most one convention, in pydantic → marshmallow → dataclass priority: the
winning convention overwrites the properties with its single tag and only
its own field attributes join the member-loop children, which carry no
field tags at all. -/
theorem gcCore_main (env : Env) (cfg : LoaderCfg) (fuel : Nat)
    (node : ObjectNode) (selm : List String) (direct : List (String × Nat))
    (ad : List (String × AttrData)) (ro : Obj) (errs : List String) (c : Obj)
    (errs' : List String)
    (hch0 : ro.children = [])
    (h : gcCore env cfg fuel node selm direct ad ro errs = .ok (c, errs')) :
    (detectsPydantic env cfg node.obj = true →
      c.data.properties = ["pydantic-model"]
      ∧ ∀ ch ∈ c.children, "marshmallow-field" ∉ ch.data.properties
          ∧ "dataclass-field" ∉ ch.data.properties)
    ∧ (detectsPydantic env cfg node.obj = false →
       detectsMarshmallow env cfg node.obj = true →
      c.data.properties = ["marshmallow-model"]
      ∧ ∀ ch ∈ c.children, "pydantic-field" ∉ ch.data.properties
          ∧ "dataclass-field" ∉ ch.data.properties)
    ∧ (detectsPydantic env cfg node.obj = false →
       detectsMarshmallow env cfg node.obj = false →
       detectsDataclass env cfg node.obj = true →
      c.data.properties = ["dataclass"]
      ∧ ∀ ch ∈ c.children, "pydantic-field" ∉ ch.data.properties
          ∧ "marshmallow-field" ∉ ch.data.properties) := by
  cases fuel with
  | zero => simp [gcCore] at h
  | succ f =>
    simp only [gcCore] at h
    split at h
    · simp at h
    · rename_i ro2 errs2 hcml
      obtain ⟨new, hch2, hallnf⟩ :=
        cml_children env cfg _ _ _ _ _ _ _ _ _ hcml
      have hch2' : ro2.children = new := by rw [hch2, hch0]; simp
      refine ⟨fun hpy => ?_, fun hnpy hma => ?_, fun hnpy hnma hdc => ?_⟩
      · simp only [hpy, if_true] at h
        split at h
        · simp at h
        · rename_i reg hreg
          obtain ⟨rfl, rfl⟩ := Prod.mk.inj (Except.ok.inj h)
          obtain ⟨newP, hchp, hallp⟩ := pfl_children env cfg node
            (((env.mro node.obj).drop 1).dropLast) selm (env.dictItems reg)
            (ro2.setProperties ["pydantic-model"])
          refine ⟨by rw [pfl_data, Obj.props_setProperties], ?_⟩
          intro ch hm
          rw [hchp, Obj.children_setProperties, hch2'] at hm
          rcases List.mem_append.mp hm with hmem | hmem
          · obtain ⟨_, hb, hc⟩ := hallnf ch hmem
            exact ⟨hb, hc⟩
          · rcases hallp ch hmem with hp | hp <;> rw [hp] <;>
              exact ⟨by decide, by decide⟩
      · simp only [hnpy, Bool.false_eq_true, if_false, hma, if_true] at h
        split at h
        · simp at h
        · rename_i reg hreg
          obtain ⟨rfl, rfl⟩ := Prod.mk.inj (Except.ok.inj h)
          obtain ⟨newM, hchm, hallm⟩ := mfl_children env cfg node
            (((env.mro node.obj).drop 1).dropLast) selm (env.dictItems reg)
            (ro2.setProperties ["marshmallow-model"])
          refine ⟨by rw [mfl_data, Obj.props_setProperties], ?_⟩
          intro ch hm
          rw [hchm, Obj.children_setProperties, hch2'] at hm
          rcases List.mem_append.mp hm with hmem | hmem
          · obtain ⟨ha, _, hc⟩ := hallnf ch hmem
            exact ⟨ha, hc⟩
          · rcases hallm ch hmem with hp | hp <;> rw [hp] <;>
              exact ⟨by decide, by decide⟩
      · simp only [hnpy, hnma, Bool.false_eq_true, if_false, hdc, if_true] at h
        split at h
        · simp at h
        · rename_i reg hreg
          split at h
          · simp at h
          · rename_i ro3 hdcl
            obtain ⟨rfl, rfl⟩ := Prod.mk.inj (Except.ok.inj h)
            obtain ⟨newD, hchd, halld⟩ := dcl_children env cfg node
              (((env.mro node.obj).drop 1).dropLast) selm _ _ _ hdcl
            refine ⟨by rw [dcl_data env cfg _ _ _ _ _ _ hdcl,
              Obj.props_setProperties], ?_⟩
            intro ch hm
            rw [hchd, Obj.children_setProperties, hch2'] at hm
            rcases List.mem_append.mp hm with hmem | hmem
            · obtain ⟨ha, hb, _⟩ := hallnf ch hmem
              exact ⟨ha, hb⟩
            · rw [halld ch hmem]
              exact ⟨by decide, by decide⟩

/-- Claim C7: structured-declaration detection applies at most one
convention per class, in pydantic → marshmallow → dataclass priority: a
class detected by a higher-priority convention is tagged with only that
convention's tag (properties overwritten to the single tag) and among its
direct children only that convention's field attributes appear — no child
carries another convention's field tag. -/
theorem pytkdocs_C7 (env : Env) (cfg : LoaderCfg) (fuel : Nat)
    (node : ObjectNode) (sel : SelectMembers) (errs : List String) (c : Obj)
    (errs' : List String)
    (h : get_class_documentation env cfg fuel node sel errs = .ok (c, errs'))
    (hsel : sel ≠ .selectNone) :
    (detectsPydantic env cfg node.obj = true →
      c.data.properties = ["pydantic-model"]
      ∧ ∀ ch ∈ c.children, "marshmallow-field" ∉ ch.data.properties
          ∧ "dataclass-field" ∉ ch.data.properties)
    ∧ (detectsPydantic env cfg node.obj = false →
       detectsMarshmallow env cfg node.obj = true →
      c.data.properties = ["marshmallow-model"]
      ∧ ∀ ch ∈ c.children, "pydantic-field" ∉ ch.data.properties
          ∧ "dataclass-field" ∉ ch.data.properties)
    ∧ (detectsPydantic env cfg node.obj = false →
       detectsMarshmallow env cfg node.obj = false →
       detectsDataclass env cfg node.obj = true →
      c.data.properties = ["dataclass"]
      ∧ ∀ ch ∈ c.children, "pydantic-field" ∉ ch.data.properties
          ∧ "marshmallow-field" ∉ ch.data.properties) := by
  cases fuel with
  | zero => simp [get_class_documentation] at h
  | succ f =>
    simp only [get_class_documentation] at h
    split at h
    all_goals try simp at h
    all_goals
      exact gcCore_main env cfg f node _ _ _ _ _ c errs'
        (by rw [parse_docstring_children]; rfl) h

/-- A concrete class `1` exposing both a pydantic `__fields__` registry
(with one field `fx`) and a marshmallow `_declared_fields` registry: the
detection is multi-convention, the higher-priority pydantic wins. -/
def envC7 : Env := { defEnv with
  isClass := fun o => o == 1,
  mro := fun o => if o == 1 then [1, 99] else [],
  dictOfClass := fun o =>
    if o == 1 then [("__fields__", 20), ("_declared_fields", 21)] else [],
  getmembers := fun o =>
    if o == 1 then [("__fields__", 20), ("_declared_fields", 21)] else [],
  dictItems := fun o => if o == 20 then [("fx", 30)] else [] }

/-- The entity the multi-convention class of `envC7` builds to: tagged
exactly `["pydantic-model"]` with a single pydantic field child. -/
def cC7 : Obj :=
  .mk { kind := .class_, name := "C", path := "C", file_path := "",
        docstring := some "", properties := ["pydantic-model"] }
    [.mk { kind := .attribute, name := "fx", path := "C.fx", file_path := "",
           docstring := none, attr_type := some 30,
           properties := ["pydantic-field"] } []]

/-- Witness for C7: the multi-convention class builds successfully, is
tagged exactly `["pydantic-model"]`, and no direct child carries a
marshmallow or dataclass field tag. -/
theorem pytkdocs_C7_witness :
    get_class_documentation envC7 cfgEmpty 10 (.root 1 "C") .noSelection []
      = .ok (cC7, [])
    ∧ detectsPydantic envC7 cfgEmpty ((ObjectNode.root 1 "C").obj) = true
    ∧ detectsMarshmallow envC7 cfgEmpty ((ObjectNode.root 1 "C").obj) = true
    ∧ cC7.data.properties = ["pydantic-model"]
    ∧ ∀ ch ∈ cC7.children, "marshmallow-field" ∉ ch.data.properties
        ∧ "dataclass-field" ∉ ch.data.properties := by
  refine ⟨rfl, rfl, rfl, ?_⟩
  exact (pytkdocs_C7 envC7 cfgEmpty 10 (.root 1 "C") .noSelection [] cC7 [] rfl
    (by decide)).1 rfl

end Pytkdocs
